import Mathlib

/-!
# Verification of the survey statistics engine of `app.py`

This file gives a shallow embedding of the statistics computation engine of
the HIV survey-analysis application (`src/app.py`), namely the functions
`calculate_descriptive_stats` (lines 467-595) and `create_cross_tabulation`
(lines 597-639), together with the parts of the pandas/scipy behaviour those
functions rely on, and proves the specified properties about them.

Modelling conventions:
* a dataset column is typed the way pandas types it: a numeric
  (`int64`/`float64`) column holding numbers or missing values (NaN), or an
  `object` column holding string labels or missing values;
* machine floats are modelled as exact rationals (`ℚ`) or reals (`ℝ`);
* the chi-square survival function used by `scipy.stats.chi2_contingency`
  for the p-value is modelled as the defining integral over `ℝ`;
* Python's stable sort (`list.sort`), used for ranking, and the ascending
  label sort performed by `pd.crosstab`, are modelled by `List.insertionSort`,
  which is provably sorted, stable and a permutation - the properties that
  uniquely determine the output of any stable sort;
* `df[col].sum()` on an `object` (string) column followed by division is a
  Python `TypeError`; the descriptive engine models this with `Except`.
-/

namespace SurveyApp

/-- A non-missing cell value of the dataset: a number or a string label. -/
inductive Val where
  | num (q : ℚ)
  | str (s : String)
deriving DecidableEq

/-- A dataset column as pandas types it: a numeric column (values or NaN) or
an `object` column of string labels (or NaN). -/
inductive ColData where
  | nums (vals : List (Option ℚ))
  | strs (vals : List (Option String))
deriving DecidableEq

/-- A pandas `DataFrame`: named columns over aligned rows. -/
structure DataFrame where
  cols : List (String × ColData)
deriving DecidableEq

/-- `df[col].notna().sum()`: number of non-missing entries of a column. -/
def ColData.notnaCount : ColData → Nat
  | .nums vs => vs.countP (·.isSome)
  | .strs vs => vs.countP (·.isSome)

/-- `df[col].nunique()`: number of distinct non-missing values. -/
def ColData.nunique : ColData → Nat
  | .nums vs => (vs.filterMap id).dedup.length
  | .strs vs => (vs.filterMap id).dedup.length

/-- pandas' dtype test `df[var].dtype in ['int64', 'float64']`. -/
def ColData.isNumeric : ColData → Bool
  | .nums _ => true
  | .strs _ => false

/-- `df[col].sum()` on a numeric column: missing entries are skipped. -/
def sumSome (vs : List (Option ℚ)) : ℚ :=
  (vs.filterMap id).sum

/-- `x.notna().sum()` of a single list of optional values. -/
def countSome {α : Type} (vs : List (Option α)) : Nat :=
  vs.countP (·.isSome)

/-- Python's `pat in s` substring test on strings. -/
def strContains (s pat : String) : Prop :=
  pat.data <:+: s.data

instance (s pat : String) : Decidable (strContains s pat) :=
  List.decidableInfix pat.data s.data

/-- Python's `s.startswith(pat)` on strings. -/
def strStartsWith (s pat : String) : Bool :=
  pat.data.isPrefixOf s.data

/-- One step list of Python's `s.replace(pat, rep)` on character lists, with
explicit fuel (the initial list length suffices): replaces every
non-overlapping occurrence, scanning left to right. -/
def replaceFuel (pat rep : List Char) : Nat → List Char → List Char
  | 0, _ => []
  | _ + 1, [] => []
  | n + 1, c :: cs =>
    if pat ≠ [] ∧ pat.isPrefixOf (c :: cs) then
      rep ++ replaceFuel pat rep n ((c :: cs).drop pat.length)
    else
      c :: replaceFuel pat rep n cs

/-- Python's `s.replace(pat, rep)` on strings. -/
def strReplace (s pat rep : String) : String :=
  ⟨replaceFuel pat.data rep.data s.data.length s.data⟩

/-- The inline concern-level expression used at every result-construction
site of `calculate_descriptive_stats`:
`'high' if percentage > 40 else 'medium' if percentage > 25 else 'low'`. -/
def concernLevel (percentage : ℚ) : String :=
  if percentage > 40 then "high" else if percentage > 25 then "medium" else "low"

/-- One entry of the `stats_results` list built by
`calculate_descriptive_stats`.  Binary variables carry `positive`,
categorical variables carry `categories`; `is_top_ranked` is set only by the
indicator-set-1 ranking loop. -/
structure Result where
  var : String
  name : String
  category : String
  kind : String
  total : Nat
  positive : Option ℚ
  categories : Option (List (Val × Nat))
  percentage : ℚ
  concern_level : String
  rank : Nat
  is_top_ranked : Option Bool
deriving DecidableEq

/-- `value_counts()` of a column, embedded into `Val` keys: counts of the
distinct non-missing values, sorted by count descending. -/
def valueCounts {α : Type} [DecidableEq α] (emb : α → Val) (vs : List (Option α)) :
    List (Val × Nat) :=
  let xs := vs.filterMap id
  (xs.dedup.map fun v => (emb v, xs.count v)).insertionSort fun a b => b.2 ≤ a.2

/-- The hardcoded `concerning_values` list of `calculate_descriptive_stats`. -/
def concerning_values : List String :=
  ["Very concerned", "Extremely concerned", "Significant disruptions",
   "Frequently", "Almost always", "Significant decline"]

/-- `sum([value_counts.get(val, 0) for val in concerning_values])`:
on a numeric column the keys of `value_counts` are numbers, so every string
lookup defaults to 0. -/
def concerningCount : ColData → Nat
  | .nums _ => 0
  | .strs vs => (concerning_values.map fun v => (vs.filterMap id).count v).sum

/-- The column filter for the `Service Disruptions` block of indicator set 1:
`col.startswith('Q9_') and 'No_disruptions' not in col`. -/
def isServiceCol (name : String) : Bool :=
  strStartsWith name "Q9_" && !(decide (strContains name "No_disruptions"))

/-- The column filter for the `Populations Most Affected` block:
`col.startswith('Q10_Pop_')`. -/
def isPopCol (name : String) : Bool :=
  strStartsWith name "Q10_Pop_"

/-- The per-column body of the two indicator-set-1 loops.  On a numeric
column it produces the binary-variable result dict; on an `object` column
`df[col].sum()` produces a string and the subsequent division raises a
Python `TypeError`, modelled as an error. -/
def binaryStats (category : String) (mkName : String → String) :
    String × ColData → Except Unit Result
  | (col, .nums vs) =>
    let total := countSome vs
    let positive := sumSome vs
    let percentage := if total > 0 then positive / (total : ℚ) * 100 else 0
    .ok { var := col, name := mkName col, category := category, kind := "Binary",
          total := total, positive := some positive, categories := none,
          percentage := percentage, concern_level := concernLevel percentage,
          rank := 0, is_top_ranked := none }
  | (_, .strs _) => .error ()

/-- The unranked `stats_results` of the indicator-set-1 branch: the
`Service Disruptions` loop followed by the `Populations Most Affected`
loop, each over the matching columns in dataset order. -/
def set1Results (df : DataFrame) : Except Unit (List Result) := do
  let svc ← (df.cols.filter fun c => isServiceCol c.1).mapM
    (binaryStats "Service Disruptions" fun col => strReplace (strReplace col "Q9_" "") "_" " ")
  let pop ← (df.cols.filter fun c => isPopCol c.1).mapM
    (binaryStats "Populations Most Affected" fun col => strReplace (strReplace col "Q10_Pop_" "") "_" " ")
  return svc ++ pop

/-- The name-prefix lists selecting `outcome_vars` for indicator sets 2-5;
any other indicator set selects nothing. -/
def outcomeVarPats (indicator_set : String) : List String :=
  if indicator_set = "set2" then ["Q21", "Q22", "Q23", "Q27", "Q28"]
  else if indicator_set = "set3" then ["Q27", "Q23", "Q30"]
  else if indicator_set = "set4" then ["Q11", "Q12", "Q13", "Q15"]
  else if indicator_set = "set5" then ["Q18", "Q19"]
  else []

/-- The per-variable body of the non-set-1 loop: numeric columns with at
most 2 distinct values are treated as binary, everything else as
categorical with the hardcoded concerning-value list. -/
def otherStat (c : String × ColData) : Result :=
  let total := c.2.notnaCount
  if c.2.isNumeric && c.2.nunique ≤ 2 then
    let positive := match c.2 with | .nums vs => sumSome vs | .strs _ => 0
    let percentage := if total > 0 then positive / (total : ℚ) * 100 else 0
    { var := c.1, name := strReplace c.1 "_" " ", category := "Outcome", kind := "Binary",
      total := total, positive := some positive, categories := none,
      percentage := percentage, concern_level := concernLevel percentage,
      rank := 0, is_top_ranked := none }
  else
    let cats := match c.2 with
      | .nums vs => valueCounts Val.num vs
      | .strs vs => valueCounts Val.str vs
    let percentage :=
      if total > 0 then ((concerningCount c.2 : ℚ)) / (total : ℚ) * 100 else 0
    { var := c.1, name := strReplace c.1 "_" " ", category := "Outcome", kind := "Categorical",
      total := total, positive := none, categories := some cats,
      percentage := percentage, concern_level := concernLevel percentage,
      rank := 0, is_top_ranked := none }

/-- The unranked `stats_results` list of the non-set-1 branch. -/
def otherResults (df : DataFrame) (indicator_set : String) : List Result :=
  (df.cols.filter fun c => (outcomeVarPats indicator_set).any fun p => strStartsWith c.1 p).map
    otherStat

/-- The sort order used by `results.sort(key=lambda x: x.get('percentage', 0),
reverse=True)`: `a` may precede `b` exactly when `a`'s percentage is not
smaller.  A stable sort under this relation is Python's descending stable
sort. -/
def pctGE (a b : Result) : Prop := b.percentage ≤ a.percentage

instance : DecidableRel pctGE := fun a b =>
  inferInstanceAs (Decidable (b.percentage ≤ a.percentage))

instance : IsTotal Result pctGE := ⟨fun a b => le_total b.percentage a.percentage⟩

instance : IsTrans Result pctGE := ⟨fun _ _ _ h h' => le_trans h' h⟩

/-- `for i, result in enumerate(...): result['rank'] = i + 1`. -/
def assignRanks (i : Nat) : List Result → List Result
  | [] => []
  | r :: rs => { r with rank := i + 1 } :: assignRanks (i + 1) rs

/-- The indicator-set-1 enumerate loop, which additionally sets
`is_top_ranked = (i == 0)`. -/
def assignRanksTop (i : Nat) : List Result → List Result
  | [] => []
  | r :: rs =>
    { r with rank := i + 1, is_top_ranked := some (i = 0) } :: assignRanksTop (i + 1) rs

/-- The indicator-set-1 ranking stage: service disruptions and populations
are filtered out of `stats_results`, stably sorted by percentage descending
and ranked separately, then concatenated. -/
def rankSet1 (stats_results : List Result) : List Result :=
  let service_results := stats_results.filter fun r => r.category = "Service Disruptions"
  let pop_results := stats_results.filter fun r => r.category = "Populations Most Affected"
  assignRanksTop 0 (service_results.insertionSort pctGE) ++
    assignRanksTop 0 (pop_results.insertionSort pctGE)

/-- The ranking stage of every other indicator set: one stable descending
sort of the whole result list, then ranks 1.. by position. -/
def rankOther (stats_results : List Result) : List Result :=
  assignRanks 0 (stats_results.insertionSort pctGE)

/-- `calculate_descriptive_stats(df, indicator_set)` (app.py lines 467-595). -/
def calculate_descriptive_stats (df : DataFrame) (indicator_set : String) :
    Except Unit (List Result) :=
  if indicator_set = "set1" then
    (set1Results df).map rankSet1
  else
    .ok (rankOther (otherResults df indicator_set))

/-! ## Cross tabulation (`create_cross_tabulation`, app.py lines 597-639) -/

/-- Lexicographic `≤` on character lists by code point: the order Python
(and hence pandas) compares strings with. -/
def charsLE : List Char → List Char → Bool
  | [], _ => true
  | _ :: _, [] => false
  | a :: as, b :: bs =>
    if a < b then true
    else if b < a then false
    else charsLE as bs

theorem charsLE_total : ∀ as bs, charsLE as bs = true ∨ charsLE bs as = true
  | [], _ => .inl rfl
  | _ :: _, [] => .inr rfl
  | a :: as, b :: bs => by
    by_cases h1 : a < b
    · exact .inl (by simp [charsLE, h1])
    · by_cases h2 : b < a
      · exact .inr (by simp [charsLE, h1, h2])
      · cases charsLE_total as bs with
        | inl h => exact .inl (by simp [charsLE, h1, h2, h])
        | inr h => exact .inr (by simp [charsLE, h1, h2, h])

theorem charsLE_trans :
    ∀ as bs cs, charsLE as bs = true → charsLE bs cs = true → charsLE as cs = true
  | [], _, _, _, _ => rfl
  | a :: as, b :: bs, [], _, h2 => by simp [charsLE] at h2
  | a :: as, [], cs, h1, _ => by simp [charsLE] at h1
  | a :: as, b :: bs, c :: cs, h1, h2 => by
    simp only [charsLE] at h1 h2 ⊢
    rcases lt_trichotomy a b with hab | hab | hab
    · rcases lt_trichotomy b c with hbc | hbc | hbc
      · simp [lt_trans hab hbc]
      · subst hbc; simp [hab]
      · simp [not_lt_of_lt hbc, hbc] at h2
    · subst hab
      rcases lt_trichotomy a c with hac | hac | hac
      · simp [hac]
      · subst hac
        simp [lt_irrefl] at h1 h2 ⊢
        exact charsLE_trans as bs cs h1 h2
      · simp [lt_irrefl] at h1
        simp [not_lt_of_lt hac, hac] at h2
    · simp [not_lt_of_lt hab, hab] at h1

/-- The ascending order `pd.crosstab` sorts its row/column labels with:
numeric order on numbers, code-point lexicographic order on strings.
Within one column all observed labels have the same kind; the cross-kind
cases are fixed arbitrarily (numbers first) to make the order total. -/
def Val.le : Val → Val → Prop
  | .num a, .num b => a ≤ b
  | .num _, .str _ => True
  | .str _, .num _ => False
  | .str a, .str b => charsLE a.data b.data = true

instance : DecidableRel Val.le := fun a b =>
  match a, b with
  | .num a, .num b => inferInstanceAs (Decidable (a ≤ b))
  | .num _, .str _ => inferInstanceAs (Decidable True)
  | .str _, .num _ => inferInstanceAs (Decidable False)
  | .str a, .str b => inferInstanceAs (Decidable (charsLE a.data b.data = true))

instance : IsTotal Val Val.le :=
  ⟨fun a b =>
    match a, b with
    | .num a, .num b => le_total a b
    | .num _, .str _ => .inl trivial
    | .str _, .num _ => .inr trivial
    | .str a, .str b => charsLE_total a.data b.data⟩

instance : IsTrans Val Val.le :=
  ⟨fun a b c hab hbc =>
    match a, b, c, hab, hbc with
    | .num _, .num _, .num _, hab, hbc => le_trans hab hbc
    | .num _, _, .str _, _, _ => trivial
    | .str a, .str b, .str c, hab, hbc => charsLE_trans a.data b.data c.data hab hbc⟩

/-- A column's cells embedded into `Val`. -/
def colToVals : ColData → List (Option Val)
  | .nums vs => vs.map (Option.map Val.num)
  | .strs vs => vs.map (Option.map Val.str)

/-- `name in df.columns` / column lookup. -/
def DataFrame.col? (df : DataFrame) (name : String) : Option ColData :=
  (df.cols.find? fun c => c.1 = name).map Prod.snd

/-- `df[[outcome_var, independent_var]].dropna()` projected to
(independent value, outcome value) pairs: any row with a missing value in
either column is dropped. -/
def cleanPairs (iv ov : List (Option Val)) : List (Val × Val) :=
  (iv.zip ov).filterMap fun p => p.1.bind fun a => p.2.map fun b => (a, b)

/-- The distinct observed labels of a value list, in the ascending order
`pd.crosstab` presents them. -/
def sortedLabels (xs : List Val) : List Val :=
  xs.dedup.insertionSort Val.le

/-- One cell of the contingency table: the number of kept rows with the
given (independent, outcome) value pair. -/
def cellCount (pairs : List (Val × Val)) (r c : Val) : Nat :=
  pairs.count (r, c)

/-- A row margin: the number of kept rows with the given independent value. -/
def rowTotal (pairs : List (Val × Val)) (r : Val) : Nat :=
  pairs.countP fun p => p.1 = r

/-- A column margin: the number of kept rows with the given outcome value. -/
def colTotal (pairs : List (Val × Val)) (c : Val) : Nat :=
  pairs.countP fun p => p.2 = c

/-- A labelled table as returned by `pd.crosstab`: row labels, column
labels, and the grid of cells in row-major order. -/
structure CTable (α : Type) where
  rowLabels : List Val
  colLabels : List Val
  cells : List (List α)
deriving DecidableEq

/-- `pd.crosstab(clean_df[independent_var], clean_df[outcome_var],
margins=True)`: rows indexed by the sorted observed independent labels,
columns by the sorted observed outcome labels, with an appended `All`
margin row and column holding the row/column sums and the grand total. -/
def crosstabMargins (pairs : List (Val × Val)) : CTable Nat :=
  let rls := sortedLabels (pairs.map Prod.fst)
  let cls := sortedLabels (pairs.map Prod.snd)
  { rowLabels := rls ++ [Val.str "All"]
    colLabels := cls ++ [Val.str "All"]
    cells :=
      (rls.map fun r => (cls.map fun c => cellCount pairs r c) ++ [rowTotal pairs r]) ++
        [(cls.map fun c => colTotal pairs c) ++ [pairs.length]] }

/-- `pd.crosstab(clean_df[independent_var], clean_df[outcome_var],
normalize='index') * 100`: the row-normalized percentage table, without
margins. -/
def crosstabPct (pairs : List (Val × Val)) : CTable ℚ :=
  let rls := sortedLabels (pairs.map Prod.fst)
  let cls := sortedLabels (pairs.map Prod.snd)
  { rowLabels := rls
    colLabels := cls
    cells := rls.map fun r =>
      cls.map fun c => (cellCount pairs r c : ℚ) / (rowTotal pairs r : ℚ) * 100 }

/-- Degrees of freedom of the chi-square test of independence on an
observed table, as `scipy.stats.chi2_contingency` computes it. -/
def chi2Dof (obs : List (List Nat)) : Nat :=
  (obs.length - 1) * ((obs.headD []).length - 1)

/-- The column sums of a (rectangular) table of observed counts. -/
def colSums : List (List Nat) → List Nat
  | [] => []
  | [row] => row
  | row :: rest => List.zipWith (· + ·) row (colSums rest)

/-- The chi-square statistic computed by `scipy.stats.chi2_contingency`
with its default arguments: Pearson's statistic over the expected
frequencies `rowsum * colsum / n`, with Yates' continuity correction
(each observed count moved `min(0.5, |observed - expected|)` toward its
expected count) exactly when the table has one degree of freedom.
For the tables this file applies it to, every expected frequency is
positive, so the `ValueError` branch of scipy never triggers. -/
def chi2Stat (obs : List (List Nat)) : ℚ :=
  let n : ℚ := ((obs.map List.sum).sum : Nat)
  let colS : List Nat := colSums obs
  ((obs.map fun row =>
    let rS : Nat := row.sum
    (((row.zip colS).map fun oc =>
      let e : ℚ := ((rS : ℚ) * (oc.2 : ℚ)) / n
      let d : ℚ := |(oc.1 : ℚ) - e|
      let dc : ℚ := if chi2Dof obs = 1 then d - min (1/2) d else d
      dc ^ 2 / e).sum)).sum)

/-- Survival function of the chi-square distribution with `dof` degrees of
freedom: the p-value `scipy.stats.chi2_contingency` reports for a
statistic `x` is the upper tail mass of that distribution at `x`.  The
density of the chi-square distribution is
`t ^ (dof/2 - 1) * exp (-t/2) / (2 ^ (dof/2) * Gamma (dof/2))`. -/
noncomputable def chiSquareSF (dof : Nat) (x : ℝ) : ℝ :=
  ∫ t in Set.Ioi x,
    t ^ ((dof : ℝ) / 2 - 1) * Real.exp (-t / 2) /
      ((2 : ℝ) ^ ((dof : ℝ) / 2) * Real.Gamma ((dof : ℝ) / 2))

/-- The result dict of `create_cross_tabulation`. -/
structure CrossTabResult where
  crosstab : CTable Nat
  percentages : CTable ℚ
  chi2_stat : Option ℚ
  p_value : Option ℝ
  cramers_v : Option ℝ
  sample_size : Nat

/-- `create_cross_tabulation(df, outcome_var, independent_var)`
(app.py lines 597-639).  `None` when a requested variable is not a column
or no rows survive the missing-value filter; the statistical fields are
`None` unless the inner table (margins removed) has at least 2 rows and
2 columns. -/
noncomputable def create_cross_tabulation (df : DataFrame)
    (outcome_var independent_var : String) : Option CrossTabResult :=
  match df.col? outcome_var, df.col? independent_var with
  | some oc, some ic =>
    let pairs := cleanPairs (colToVals ic) (colToVals oc)
    if pairs.length = 0 then none
    else
      let ct := crosstabMargins pairs
      let test := ct.cells.dropLast.map List.dropLast
      let stats :=
        if test.length > 1 ∧ (test.headD []).length > 1 then
          let s := chi2Stat test
          let n : Nat := (test.map List.sum).sum
          (some s, some (chiSquareSF (chi2Dof test) (s : ℝ)),
            some (Real.sqrt ((s : ℝ) /
              ((n : ℝ) * ((min test.length (test.headD []).length : ℝ) - 1)))))
        else (none, none, none)
      some { crosstab := ct, percentages := crosstabPct pairs,
             chi2_stat := stats.1, p_value := stats.2.1, cramers_v := stats.2.2,
             sample_size := pairs.length }
  | _, _ => none

/-- The inner contingency table of a returned result: the count table with
the margin row and margin column removed (`crosstab.iloc[:-1, :-1]`). -/
def innerCells (r : CrossTabResult) : List (List Nat) :=
  r.crosstab.cells.dropLast.map List.dropLast

/-! ## Supporting lemmas -/

theorem concernLevel_bands (p : ℚ) :
    (concernLevel p = "high" ↔ 40 < p) ∧
      (concernLevel p = "medium" ↔ 25 < p ∧ p ≤ 40) ∧
      (concernLevel p = "low" ↔ p ≤ 25) := by
  unfold concernLevel
  by_cases h40 : 40 < p
  · rw [if_pos h40]
    exact ⟨⟨fun _ => h40, fun _ => rfl⟩,
      ⟨fun hc => absurd hc (by decide), fun hc => absurd h40 (not_lt.mpr hc.2)⟩,
      ⟨fun hc => absurd hc (by decide),
        fun hc => absurd h40 (not_lt.mpr (le_trans hc (by norm_num)))⟩⟩
  · rw [if_neg h40]
    by_cases h25 : 25 < p
    · rw [if_pos h25]
      exact ⟨⟨fun hc => absurd hc (by decide), fun hc => absurd hc h40⟩,
        ⟨fun _ => ⟨h25, not_lt.mp h40⟩, fun _ => rfl⟩,
        ⟨fun hc => absurd hc (by decide), fun hc => absurd h25 (not_lt.mpr hc)⟩⟩
    · rw [if_neg h25]
      exact ⟨⟨fun hc => absurd hc (by decide), fun hc => absurd hc h40⟩,
        ⟨fun hc => absurd hc (by decide), fun hc => absurd hc.1 h25⟩,
        ⟨fun _ => not_lt.mp h25, fun _ => rfl⟩⟩

theorem binaryStats_fields {cat : String} {mk : String → String} {c : String × ColData}
    {r : Result} (h : binaryStats cat mk c = .ok r) :
    r.concern_level = concernLevel r.percentage ∧ r.category = cat ∧ r.var = c.1 ∧
      r.total = c.2.notnaCount := by
  obtain ⟨col, cd⟩ := c
  cases cd with
  | nums vs =>
    simp only [binaryStats, Except.ok.injEq] at h
    subst h
    exact ⟨rfl, rfl, rfl, rfl⟩
  | strs vs => simp [binaryStats] at h

theorem otherStat_concern (c : String × ColData) :
    (otherStat c).concern_level = concernLevel (otherStat c).percentage := by
  unfold otherStat
  split <;> rfl

theorem exists_of_mem_mapM {α β : Type} {f : α → Except Unit β} :
    ∀ {l : List α} {ys : List β}, l.mapM f = .ok ys → ∀ y ∈ ys, ∃ x ∈ l, f x = .ok y := by
  intro l
  induction l with
  | nil =>
    intro ys h y hy
    simp only [List.mapM_nil] at h
    cases h
    simp at hy
  | cons x xs ih =>
    intro ys h y hy
    rw [List.mapM_cons] at h
    cases hfx : f x with
    | error e => rw [hfx] at h; simp [Bind.bind, Except.bind] at h
    | ok b =>
      rw [hfx] at h
      cases hrest : xs.mapM f with
      | error e =>
        rw [hrest] at h
        simp [Bind.bind, Except.bind, Pure.pure] at h
      | ok bs =>
        rw [hrest] at h
        simp only [Bind.bind, Except.bind, Pure.pure, Except.pure, Except.ok.injEq] at h
        subst h
        rcases List.mem_cons.mp hy with hy | hy
        · exact ⟨x, List.mem_cons_self x xs, hy ▸ hfx⟩
        · obtain ⟨x', hx', hfx'⟩ := ih hrest y hy
          exact ⟨x', List.mem_cons_of_mem x hx', hfx'⟩

theorem mem_assignRanks {r : Result} :
    ∀ {i : Nat} {l : List Result}, r ∈ assignRanks i l →
      ∃ r' ∈ l, r = { r' with rank := r.rank } := by
  intro i l
  induction l generalizing i with
  | nil => intro h; simp [assignRanks] at h
  | cons a l ih =>
    intro h
    rcases List.mem_cons.mp h with h | h
    · exact ⟨a, List.mem_cons_self a l, by rw [h]⟩
    · obtain ⟨r', hr', he⟩ := ih h
      exact ⟨r', List.mem_cons_of_mem a hr', he⟩

theorem mem_assignRanksTop {r : Result} :
    ∀ {i : Nat} {l : List Result}, r ∈ assignRanksTop i l →
      ∃ r' ∈ l, r = { r' with rank := r.rank, is_top_ranked := r.is_top_ranked } := by
  intro i l
  induction l generalizing i with
  | nil => intro h; simp [assignRanksTop] at h
  | cons a l ih =>
    intro h
    rcases List.mem_cons.mp h with h | h
    · exact ⟨a, List.mem_cons_self a l, by rw [h]⟩
    · obtain ⟨r', hr', he⟩ := ih h
      exact ⟨r', List.mem_cons_of_mem a hr', he⟩

/-- Every result the descriptive engine emits carries
`concern_level = concernLevel percentage`. -/
theorem engine_concern_eq {df : DataFrame} {iset : String} {rs : List Result}
    (h : calculate_descriptive_stats df iset = .ok rs) :
    ∀ r ∈ rs, r.concern_level = concernLevel r.percentage := by
  intro r hr
  unfold calculate_descriptive_stats at h
  split at h
  · cases hset : set1Results df with
    | error e => rw [hset] at h; simp [Except.map] at h
    | ok base =>
      rw [hset] at h
      simp only [Except.map, Except.ok.injEq] at h
      subst h
      unfold set1Results at hset
      cases hsvc : (df.cols.filter fun c => isServiceCol c.1).mapM
          (binaryStats "Service Disruptions" fun col =>
            strReplace (strReplace col "Q9_" "") "_" " ") with
      | error e => rw [hsvc] at hset; simp [Bind.bind, Except.bind] at hset
      | ok svc =>
        rw [hsvc] at hset
        cases hpop : (df.cols.filter fun c => isPopCol c.1).mapM
            (binaryStats "Populations Most Affected" fun col =>
              strReplace (strReplace col "Q10_Pop_" "") "_" " ") with
        | error e =>
          rw [hpop] at hset
          simp [Bind.bind, Except.bind] at hset
        | ok pop =>
          rw [hpop] at hset
          simp only [Bind.bind, Except.bind, Pure.pure, Except.pure, Except.ok.injEq] at hset
          subst hset
          unfold rankSet1 at hr
          rcases List.mem_append.mp hr with hr | hr <;>
          · obtain ⟨r', hr', he⟩ := mem_assignRanksTop hr
            have hr'' := List.mem_insertionSort pctGE |>.mp hr'
            have hr3 := List.mem_filter.mp hr''
            rcases List.mem_append.mp hr3.1 with h4 | h4
            · obtain ⟨x, _, hfx⟩ := exists_of_mem_mapM hsvc r' h4
              have := (binaryStats_fields hfx).1
              rw [he]
              exact this
            · obtain ⟨x, _, hfx⟩ := exists_of_mem_mapM hpop r' h4
              have := (binaryStats_fields hfx).1
              rw [he]
              exact this
  · simp only [Except.ok.injEq] at h
    subst h
    unfold rankOther at hr
    obtain ⟨r', hr', he⟩ := mem_assignRanks hr
    have hr'' := List.mem_insertionSort pctGE |>.mp hr'
    unfold otherResults at hr''
    obtain ⟨c, _, hc⟩ := List.mem_map.mp hr''
    rw [he, ← hc]
    exact otherStat_concern c


/-! ## Claim theorems -/

/-- C1: For every descriptive result produced by the engine, the concern
level is determined by the percentage alone: `high` exactly when
`percentage > 40`, `medium` exactly when `25 < percentage <= 40`, and `low`
exactly when `percentage <= 25` (proved for every rational percentage, in
particular for every percentage in [0,100]). -/
theorem C1_concern_levels (df : DataFrame) (iset : String) (rs : List Result)
    (h : calculate_descriptive_stats df iset = .ok rs) :
    ∀ r ∈ rs,
      (r.concern_level = "high" ↔ 40 < r.percentage) ∧
        (r.concern_level = "medium" ↔ 25 < r.percentage ∧ r.percentage ≤ 40) ∧
        (r.concern_level = "low" ↔ r.percentage ≤ 25) := by
  intro r hr
  rw [engine_concern_eq h r hr]
  exact concernLevel_bands r.percentage

def dfC1 : DataFrame :=
  ⟨[("Q21_Fear", ColData.nums [some 1, some 1, some 1, some 0, some 0])]⟩

theorem C1_concern_levels_witness :
    ∃ rs, calculate_descriptive_stats dfC1 "set2" = .ok rs ∧
      ∀ r ∈ rs,
        (r.concern_level = "high" ↔ 40 < r.percentage) ∧
          (r.concern_level = "medium" ↔ 25 < r.percentage ∧ r.percentage ≤ 40) ∧
          (r.concern_level = "low" ↔ r.percentage ≤ 25) :=
  ⟨_, rfl, C1_concern_levels dfC1 "set2" _ rfl⟩

/-- C9: Two invocations of the descriptive-statistics engine or of the
cross-tabulation engine on a bit-identical dataset and identical parameters
produce bit-identical results: both engines are pure functions of their
arguments in this embedding, mirroring the stateless source functions. -/
theorem C9_determinism (df : DataFrame) (iset outcome_var independent_var : String) :
    calculate_descriptive_stats df iset = calculate_descriptive_stats df iset ∧
      create_cross_tabulation df outcome_var independent_var =
        create_cross_tabulation df outcome_var independent_var :=
  ⟨rfl, rfl⟩

/-- C5: `create_cross_tabulation` returns `None` if and only if at least one
of the two requested variable names is not a column of the dataset, or zero
rows remain after dropping every row in which either variable is missing;
in every other case it returns a populated result.  (Stated for two distinct
variable names, as requested by the claim.) -/
theorem C5_no_result_iff (df : DataFrame) (outcome_var independent_var : String)
    (_hne : outcome_var ≠ independent_var) :
    create_cross_tabulation df outcome_var independent_var = none ↔
      (df.col? outcome_var = none ∨ df.col? independent_var = none ∨
        ∀ oc ic, df.col? outcome_var = some oc → df.col? independent_var = some ic →
          cleanPairs (colToVals ic) (colToVals oc) = []) := by
  cases hoc : df.col? outcome_var with
  | none =>
    simp only [create_cross_tabulation, hoc]
    exact ⟨fun _ => .inl trivial, fun _ => trivial⟩
  | some oc =>
    cases hic : df.col? independent_var with
    | none =>
      simp only [create_cross_tabulation, hoc, hic]
      exact ⟨fun _ => .inr (.inl trivial), fun _ => trivial⟩
    | some ic =>
      simp only [create_cross_tabulation, hoc, hic]
      by_cases hlen : (cleanPairs (colToVals ic) (colToVals oc)).length = 0
      · rw [if_pos hlen]
        constructor
        · intro _
          refine .inr (.inr ?_)
          intro oc' ic' hoc' hic'
          injection hoc' with h1
          injection hic' with h2
          subst h1; subst h2
          exact List.length_eq_zero.mp hlen
        · intro _; rfl
      · rw [if_neg hlen]
        constructor
        · intro h; exact Option.noConfusion h
        · rintro (h | h | h)
          · exact Option.noConfusion h
          · exact Option.noConfusion h
          · exact absurd (List.length_eq_zero.mpr (h oc ic rfl rfl)) hlen

theorem C5_no_result_iff_witness :
    create_cross_tabulation dfC1 "X" "Q21_Fear" = none :=
  (C5_no_result_iff dfC1 "X" "Q21_Fear" (by decide)).mpr (.inl rfl)

/-! ## Ranking lemmas -/

theorem assignRanks_length (k : Nat) :
    ∀ l : List Result, (assignRanks k l).length = l.length
  | [] => rfl
  | _ :: rs => by simp [assignRanks, assignRanks_length (k + 1) rs]

theorem assignRanksTop_length (k : Nat) :
    ∀ l : List Result, (assignRanksTop k l).length = l.length
  | [] => rfl
  | _ :: rs => by simp [assignRanksTop, assignRanksTop_length (k + 1) rs]

theorem assignRanks_map_rank (k : Nat) :
    ∀ l : List Result, (assignRanks k l).map Result.rank = List.range' (k + 1) l.length
  | [] => rfl
  | r :: rs => by
    simp only [assignRanks, List.map_cons, assignRanks_map_rank (k + 1) rs, List.length_cons]
    rfl

theorem assignRanksTop_map_rank (k : Nat) :
    ∀ l : List Result, (assignRanksTop k l).map Result.rank = List.range' (k + 1) l.length
  | [] => rfl
  | r :: rs => by
    simp only [assignRanksTop, List.map_cons, assignRanksTop_map_rank (k + 1) rs,
      List.length_cons]
    rfl

theorem assignRanks_get (k : Nat) :
    ∀ (l : List Result) (i : Nat) (hi : i < (assignRanks k l).length),
      (assignRanks k l).get ⟨i, hi⟩ =
        { l.get ⟨i, by rw [← assignRanks_length k l]; exact hi⟩ with rank := k + i + 1 }
  | r :: rs, 0, _ => rfl
  | r :: rs, i + 1, hi => by
    have h' : i < (assignRanks (k + 1) rs).length := by
      simp only [assignRanks, List.length_cons] at hi
      omega
    have := assignRanks_get (k + 1) rs i h'
    simp only [assignRanks, List.get_cons_succ, this]
    have harith : k + 1 + i + 1 = k + (i + 1) + 1 := by omega
    rw [harith]

theorem assignRanksTop_get (k : Nat) :
    ∀ (l : List Result) (i : Nat) (hi : i < (assignRanksTop k l).length),
      (assignRanksTop k l).get ⟨i, hi⟩ =
        { l.get ⟨i, by rw [← assignRanksTop_length k l]; exact hi⟩ with
            rank := k + i + 1, is_top_ranked := some (decide (k + i = 0)) }
  | r :: rs, 0, _ => rfl
  | r :: rs, i + 1, hi => by
    have h' : i < (assignRanksTop (k + 1) rs).length := by
      simp only [assignRanksTop, List.length_cons] at hi
      omega
    have := assignRanksTop_get (k + 1) rs i h'
    simp only [assignRanksTop, List.get_cons_succ, this]
    have harith : k + 1 + i + 1 = k + (i + 1) + 1 := by omega
    have harith2 : k + 1 + i = k + (i + 1) := by omega
    rw [harith, harith2]

theorem rank_mono_of_sorted {s : List Result} (hs : List.Sorted pctGE s)
    {i j : Nat} (hi : i < s.length) (hj : j < s.length)
    (hgt : (s.get ⟨j, hj⟩).percentage < (s.get ⟨i, hi⟩).percentage) : i < j := by
  rcases Nat.lt_trichotomy i j with h | h | h
  · exact h
  · subst h; exact absurd hgt (lt_irrefl _)
  · have := hs.rel_get_of_lt (a := ⟨j, hj⟩) (b := ⟨i, hi⟩) h
    exact absurd hgt (not_lt.mpr this)

/-- C2: Within each ranked group of n descriptive results (for indicator
set 1 the `Service Disruptions` results and the `Populations Most Affected`
results are ranked as two separate groups, never merged; other indicator
sets form one group), the assigned ranks are exactly {1,...,n}, any result
with strictly greater percentage receives a strictly smaller rank, and
results with equal percentages keep the relative order they had before
sorting (stable sort). -/
theorem C2_ranking :
    (∀ stats_results : List Result,
      rankSet1 stats_results =
          assignRanksTop 0
              ((stats_results.filter fun r =>
                r.category = "Service Disruptions").insertionSort pctGE) ++
            assignRanksTop 0
              ((stats_results.filter fun r =>
                r.category = "Populations Most Affected").insertionSort pctGE) ∧
        rankOther stats_results = assignRanks 0 (stats_results.insertionSort pctGE)) ∧
    (∀ g : List Result,
      (assignRanks 0 (g.insertionSort pctGE)).map Result.rank =
          List.range' 1 g.length ∧
        (assignRanksTop 0 (g.insertionSort pctGE)).map Result.rank =
          List.range' 1 g.length) ∧
    (∀ (g : List Result) (i j : Nat)
      (hi : i < (assignRanks 0 (g.insertionSort pctGE)).length)
      (hj : j < (assignRanks 0 (g.insertionSort pctGE)).length),
      ((assignRanks 0 (g.insertionSort pctGE)).get ⟨j, hj⟩).percentage <
          ((assignRanks 0 (g.insertionSort pctGE)).get ⟨i, hi⟩).percentage →
        ((assignRanks 0 (g.insertionSort pctGE)).get ⟨i, hi⟩).rank <
          ((assignRanks 0 (g.insertionSort pctGE)).get ⟨j, hj⟩).rank) ∧
    (∀ (g : List Result) (i j : Nat)
      (hi : i < (assignRanksTop 0 (g.insertionSort pctGE)).length)
      (hj : j < (assignRanksTop 0 (g.insertionSort pctGE)).length),
      ((assignRanksTop 0 (g.insertionSort pctGE)).get ⟨j, hj⟩).percentage <
          ((assignRanksTop 0 (g.insertionSort pctGE)).get ⟨i, hi⟩).percentage →
        ((assignRanksTop 0 (g.insertionSort pctGE)).get ⟨i, hi⟩).rank <
          ((assignRanksTop 0 (g.insertionSort pctGE)).get ⟨j, hj⟩).rank) ∧
    (∀ (g : List Result) (a b : Result), a.percentage = b.percentage →
      List.Sublist [a, b] g → List.Sublist [a, b] (g.insertionSort pctGE)) := by
  refine ⟨fun _ => ⟨rfl, rfl⟩, ?_, ?_, ?_, ?_⟩
  · intro g
    constructor
    · rw [assignRanks_map_rank, List.length_insertionSort]
    · rw [assignRanksTop_map_rank, List.length_insertionSort]
  · intro g i j hi hj hgt
    simp only [assignRanks_get 0 (g.insertionSort pctGE) i hi,
      assignRanks_get 0 (g.insertionSort pctGE) j hj] at hgt ⊢
    have := rank_mono_of_sorted (List.sorted_insertionSort pctGE g) _ _ hgt
    omega
  · intro g i j hi hj hgt
    simp only [assignRanksTop_get 0 (g.insertionSort pctGE) i hi,
      assignRanksTop_get 0 (g.insertionSort pctGE) j hj] at hgt ⊢
    have := rank_mono_of_sorted (List.sorted_insertionSort pctGE g) _ _ hgt
    omega
  · intro g a b hpct hsub
    exact List.pair_sublist_insertionSort (le_of_eq hpct.symm) hsub

/-- A synthetic descriptive result used by concrete ranking witnesses. -/
def rW (v : String) (p : ℚ) : Result :=
  { var := v, name := v, category := "Outcome", kind := "Binary", total := 5,
    positive := some 1, categories := none, percentage := p,
    concern_level := concernLevel p, rank := 0, is_top_ranked := none }

theorem C2_ranking_witness :
    ((assignRanks 0 (([rW "a" 10, rW "b" 60]).insertionSort pctGE)).map Result.rank =
        [1, 2]) ∧
      ((rW "a" 10).percentage = (rW "c" 10).percentage ∧
        List.Sublist [rW "a" 10, rW "c" 10]
          ([rW "a" 10, rW "c" 10].insertionSort pctGE)) :=
  ⟨by rw [(C2_ranking.2.1 [rW "a" 10, rW "b" 60]).1]; rfl,
    rfl,
    C2_ranking.2.2.2.2 [rW "a" 10, rW "c" 10] (rW "a" 10) (rW "c" 10) rfl
      (List.Sublist.refl _)⟩

/-! ## Structure of a returned cross-tabulation result -/

/-- Everything `create_cross_tabulation` packs into a `some` result, as a
function of the dataset: the two columns exist, the kept row pairs are
nonempty, the tables and sample size are steps 2-3 of the computation, and
the statistical fields are filled from the chi-square test exactly when the
inner table is at least 2 x 2 and are `none` otherwise. -/
theorem create_some_spec {df : DataFrame} {o i : String} {r : CrossTabResult}
    (h : create_cross_tabulation df o i = some r) :
    ∃ oc ic, df.col? o = some oc ∧ df.col? i = some ic ∧
      cleanPairs (colToVals ic) (colToVals oc) ≠ [] ∧
      r.crosstab = crosstabMargins (cleanPairs (colToVals ic) (colToVals oc)) ∧
      r.percentages = crosstabPct (cleanPairs (colToVals ic) (colToVals oc)) ∧
      r.sample_size = (cleanPairs (colToVals ic) (colToVals oc)).length ∧
      ((innerCells r).length > 1 ∧ ((innerCells r).headD []).length > 1 →
        r.chi2_stat = some (chi2Stat (innerCells r)) ∧
          r.p_value = some (chiSquareSF (chi2Dof (innerCells r))
            ((chi2Stat (innerCells r) : ℚ) : ℝ)) ∧
          r.cramers_v = some (Real.sqrt ((chi2Stat (innerCells r) : ℝ) /
            (((((innerCells r).map List.sum).sum : Nat) : ℝ) *
              ((min (innerCells r).length ((innerCells r).headD []).length : ℝ) - 1))))) ∧
      (¬((innerCells r).length > 1 ∧ ((innerCells r).headD []).length > 1) →
        r.chi2_stat = none ∧ r.p_value = none ∧ r.cramers_v = none) := by
  unfold create_cross_tabulation at h
  cases hoc : df.col? o with
  | none =>
    simp only [hoc] at h
    exact Option.noConfusion h
  | some oc =>
    cases hic : df.col? i with
    | none =>
      simp only [hoc, hic] at h
      exact Option.noConfusion h
    | some ic =>
      simp only [hoc, hic] at h
      by_cases hlen : (cleanPairs (colToVals ic) (colToVals oc)).length = 0
      · rw [if_pos hlen] at h; exact Option.noConfusion h
      · rw [if_neg hlen] at h
        injection h with h
        subst h
        refine ⟨oc, ic, rfl, rfl, fun he => hlen (by rw [he]; rfl), rfl, rfl, rfl, ?_, ?_⟩
        · intro hc
          have hc' :
              ((crosstabMargins (cleanPairs (colToVals ic)
                  (colToVals oc))).cells.dropLast.map List.dropLast).length > 1 ∧
                (((crosstabMargins (cleanPairs (colToVals ic)
                  (colToVals oc))).cells.dropLast.map List.dropLast).headD []).length > 1 := hc
          rw [if_pos hc']
          exact ⟨rfl, rfl, rfl⟩
        · intro hc
          have hc' :
              ¬(((crosstabMargins (cleanPairs (colToVals ic)
                  (colToVals oc))).cells.dropLast.map List.dropLast).length > 1 ∧
                (((crosstabMargins (cleanPairs (colToVals ic)
                  (colToVals oc))).cells.dropLast.map List.dropLast).headD []).length > 1) := hc
          rw [if_neg hc']
          exact ⟨rfl, rfl, rfl⟩

/-- C7: Whenever `chi2_stat` is non-null in a returned result, `cramers_v`
equals `sqrt (chi2_stat / (n * (min (rows, cols) - 1)))` where `n` is the
grand total of the inner contingency table and rows/cols its dimensions,
and that value is a non-negative real; whenever `chi2_stat` is null,
`cramers_v` is null. -/
theorem C7_cramers_v (df : DataFrame) (o i : String) (r : CrossTabResult)
    (h : create_cross_tabulation df o i = some r) :
    (∀ s, r.chi2_stat = some s →
      r.cramers_v = some (Real.sqrt ((s : ℝ) /
        (((((innerCells r).map List.sum).sum : Nat) : ℝ) *
          ((min (innerCells r).length ((innerCells r).headD []).length : ℝ) - 1)))) ∧
        ∃ v, r.cramers_v = some v ∧ 0 ≤ v) ∧
      (r.chi2_stat = none → r.cramers_v = none) := by
  obtain ⟨oc, ic, _, _, _, _, _, _, hpos, hneg⟩ := create_some_spec h
  by_cases hc : (innerCells r).length > 1 ∧ ((innerCells r).headD []).length > 1
  · obtain ⟨h1, _, h3⟩ := hpos hc
    refine ⟨?_, ?_⟩
    · intro s hs
      rw [h1] at hs
      injection hs with hs
      subst hs
      exact ⟨h3, _, h3, Real.sqrt_nonneg _⟩
    · intro hnone
      rw [h1] at hnone
      exact Option.noConfusion hnone
  · obtain ⟨h1, _, h3⟩ := hneg hc
    refine ⟨?_, fun _ => h3⟩
    intro s hs
    rw [h1] at hs
    exact Option.noConfusion hs

/-! ## The concrete Scenario-B dataset: independent variable with
categories A (5 rows) and B (5 rows), binary outcome 1 on A and 0 on B. -/

def df4 : DataFrame :=
  ⟨[("Group", ColData.strs (List.replicate 5 (some "A") ++ List.replicate 5 (some "B"))),
    ("Outcome", ColData.nums (List.replicate 5 (some 1) ++ List.replicate 5 (some 0)))]⟩

def pairs4 : List (Val × Val) :=
  cleanPairs
    (colToVals (ColData.strs (List.replicate 5 (some "A") ++ List.replicate 5 (some "B"))))
    (colToVals (ColData.nums (List.replicate 5 (some 1) ++ List.replicate 5 (some 0))))

def inner4 : List (List Nat) :=
  (crosstabMargins pairs4).cells.dropLast.map List.dropLast

noncomputable def res4 : CrossTabResult :=
  { crosstab := crosstabMargins pairs4
    percentages := crosstabPct pairs4
    chi2_stat := some (chi2Stat inner4)
    p_value := some (chiSquareSF (chi2Dof inner4) ((chi2Stat inner4 : ℚ) : ℝ))
    cramers_v := some (Real.sqrt ((chi2Stat inner4 : ℝ) /
      ((((inner4.map List.sum).sum : Nat) : ℝ) *
        ((min inner4.length (inner4.headD []).length : ℝ) - 1))))
    sample_size := pairs4.length }

theorem create_df4 : create_cross_tabulation df4 "Outcome" "Group" = some res4 := rfl

theorem C7_cramers_v_witness :
    res4.cramers_v = some (Real.sqrt ((chi2Stat inner4 : ℝ) /
      (((((innerCells res4).map List.sum).sum : Nat) : ℝ) *
        ((min (innerCells res4).length ((innerCells res4).headD []).length : ℝ) - 1)))) ∧
      ∃ v, res4.cramers_v = some v ∧ 0 ≤ v :=
  (C7_cramers_v df4 "Outcome" "Group" res4 create_df4).1 (chi2Stat inner4) rfl

/-! ## Counting lemmas: margins are sums, percentage rows sum to 100 -/

theorem sum_map_add_nat {α : Type} (l : List α) (f g : α → Nat) :
    (l.map fun x => f x + g x).sum = (l.map f).sum + (l.map g).sum := by
  induction l with
  | nil => rfl
  | cons a l ih => simp only [List.map_cons, List.sum_cons, ih]; omega

theorem sum_map_zero {α : Type} {l : List α} {f : α → Nat}
    (hz : ∀ x ∈ l, f x = 0) : (l.map f).sum = 0 := by
  refine List.sum_eq_zero ?_
  intro x hx
  obtain ⟨c, hc, hcx⟩ := List.mem_map.mp hx
  rw [← hcx]
  exact hz c hc

theorem sum_map_ite_one {cls : List Val} (hnd : cls.Nodup) {v : Val} (hv : v ∈ cls) :
    (cls.map fun c => if v = c then 1 else 0).sum = 1 := by
  induction cls with
  | nil => cases hv
  | cons c cs ih =>
    rcases List.mem_cons.mp hv with h | h
    · subst h
      simp only [List.map_cons, if_pos rfl, List.sum_cons]
      have hz : (List.map (fun c => if v = c then 1 else 0) cs).sum = 0 := by
        refine sum_map_zero ?_
        intro x hx
        by_cases hvx : v = x
        · subst hvx
          exact absurd hx (List.nodup_cons.mp hnd).1
        · exact if_neg hvx
      rw [hz]
      simp
    · have hne : v ≠ c := fun he => (List.nodup_cons.mp hnd).1 (he ▸ h)
      simp only [List.map_cons, if_neg hne, List.sum_cons,
        ih (List.nodup_cons.mp hnd).2 h]

/-- Summing one row of cell counts over a duplicate-free list of column
labels covering every outcome value with that row label gives the row
margin. -/
theorem sum_cellCount_row {cls : List Val} (hnd : cls.Nodup) :
    ∀ (pairs : List (Val × Val)) (rl : Val),
      (∀ p ∈ pairs, p.1 = rl → p.2 ∈ cls) →
      (cls.map fun c => cellCount pairs rl c).sum = rowTotal pairs rl := by
  intro pairs
  induction pairs with
  | nil =>
    intro rl _
    simp only [cellCount, rowTotal, List.count_nil, List.countP_nil]
    exact sum_map_zero fun _ _ => rfl
  | cons q ps ih =>
    intro rl hall
    have hrec := ih rl fun p hp => hall p (List.mem_cons_of_mem q hp)
    simp only [cellCount, rowTotal, List.count_cons, List.countP_cons,
      beq_iff_eq, decide_eq_true_eq] at hrec ⊢
    rw [sum_map_add_nat cls (fun c => ps.count (rl, c))
      (fun c => if q = (rl, c) then 1 else 0), hrec]
    by_cases hq : q.1 = rl
    · have hq2 : q.2 ∈ cls := hall q (List.mem_cons_self q ps) hq
      obtain ⟨qa, qb⟩ := q
      have hqa : qa = rl := hq
      subst hqa
      have hsingle : (cls.map fun c => if (qa, qb) = (qa, c) then 1 else 0).sum = 1 := by
        simp only [Prod.mk.injEq, true_and]
        exact sum_map_ite_one hnd hq2
      rw [hsingle]
      simp
    · have hzero : (cls.map fun c => if q = (rl, c) then 1 else 0).sum = 0 := by
        refine sum_map_zero ?_
        intro c _
        exact if_neg fun he => hq (by rw [he])
      rw [hzero]
      simp [hq]

/-- Summing one column of cell counts over a duplicate-free list of row
labels covering every independent value with that column label gives the
column margin. -/
theorem sum_cellCount_col {rls : List Val} (hnd : rls.Nodup) :
    ∀ (pairs : List (Val × Val)) (c : Val),
      (∀ p ∈ pairs, p.2 = c → p.1 ∈ rls) →
      (rls.map fun rl => cellCount pairs rl c).sum = colTotal pairs c := by
  intro pairs
  induction pairs with
  | nil =>
    intro c _
    simp only [cellCount, colTotal, List.count_nil, List.countP_nil]
    exact sum_map_zero fun _ _ => rfl
  | cons q ps ih =>
    intro c hall
    have hrec := ih c fun p hp => hall p (List.mem_cons_of_mem q hp)
    simp only [cellCount, colTotal, List.count_cons, List.countP_cons,
      beq_iff_eq, decide_eq_true_eq] at hrec ⊢
    rw [sum_map_add_nat rls (fun rl => ps.count (rl, c))
      (fun rl => if q = (rl, c) then 1 else 0), hrec]
    by_cases hq : q.2 = c
    · have hq1 : q.1 ∈ rls := hall q (List.mem_cons_self q ps) hq
      obtain ⟨qa, qb⟩ := q
      have hqb : qb = c := hq
      subst hqb
      have hsingle : (rls.map fun rl => if (qa, qb) = (rl, qb) then 1 else 0).sum = 1 := by
        simp only [Prod.mk.injEq, and_true]
        exact sum_map_ite_one hnd hq1
      rw [hsingle]
      simp
    · have hzero : (rls.map fun rl => if q = (rl, c) then 1 else 0).sum = 0 := by
        refine sum_map_zero ?_
        intro rl _
        exact if_neg fun he => hq (by rw [he])
      rw [hzero]
      simp [hq]

/-- Summing the per-label totals of any projection over a duplicate-free
list of labels covering the projection's image gives the number of rows. -/
theorem sum_proj_total (f : Val × Val → Val) {ls : List Val} (hnd : ls.Nodup) :
    ∀ pairs : List (Val × Val),
      (∀ p ∈ pairs, f p ∈ ls) →
      (ls.map fun l => pairs.countP fun p => f p = l).sum = pairs.length := by
  intro pairs
  induction pairs with
  | nil =>
    intro _
    simp only [List.countP_nil, List.length_nil]
    exact sum_map_zero fun _ _ => rfl
  | cons q ps ih =>
    intro hall
    have hrec := ih fun p hp => hall p (List.mem_cons_of_mem q hp)
    simp only [List.countP_cons, decide_eq_true_eq]
    rw [sum_map_add_nat ls (fun l => ps.countP fun p => f p = l)
      (fun l => if f q = l then 1 else 0), hrec]
    rw [sum_map_ite_one hnd (hall q (List.mem_cons_self q ps))]
    rfl

theorem mem_sortedLabels {xs : List Val} {v : Val} : v ∈ sortedLabels xs ↔ v ∈ xs := by
  unfold sortedLabels
  rw [List.mem_insertionSort, List.mem_dedup]

theorem nodup_sortedLabels (xs : List Val) : (sortedLabels xs).Nodup :=
  (List.perm_insertionSort Val.le xs.dedup).nodup_iff.mpr xs.nodup_dedup

theorem rowTotal_pos {pairs : List (Val × Val)} {rl : Val}
    (h : rl ∈ sortedLabels (pairs.map Prod.fst)) : 0 < rowTotal pairs rl := by
  rw [mem_sortedLabels] at h
  obtain ⟨p, hp, hpe⟩ := List.mem_map.mp h
  unfold rowTotal
  rw [List.countP_pos_iff]
  exact ⟨p, hp, by simp [hpe]⟩

/-- C6: In every returned cross-tabulation result, each row of the
percentage table (whose rows correspond exactly to the observed
independent-variable labels, all of which have row total > 0) sums to 100
over the outcome labels - exactly, hence within any floating tolerance. -/
theorem C6_pct_row_sums (df : DataFrame) (o i : String) (r : CrossTabResult)
    (h : create_cross_tabulation df o i = some r) :
    ∀ row ∈ r.percentages.cells, row.sum = 100 := by
  obtain ⟨oc, ic, _, _, _, _, hpct, _, _, _⟩ := create_some_spec h
  intro row hrow
  rw [hpct] at hrow
  unfold crosstabPct at hrow
  simp only at hrow
  obtain ⟨rl, hrl, hrow⟩ := List.mem_map.mp hrow
  subst hrow
  have hr0 : 0 < rowTotal (cleanPairs (colToVals ic) (colToVals oc)) rl := rowTotal_pos hrl
  have hne0 : ((rowTotal (cleanPairs (colToVals ic) (colToVals oc)) rl : ℚ)) ≠ 0 := by
    exact_mod_cast Nat.pos_iff_ne_zero.mp hr0
  have hall : ∀ p ∈ cleanPairs (colToVals ic) (colToVals oc), p.1 = rl →
      p.2 ∈ sortedLabels ((cleanPairs (colToVals ic) (colToVals oc)).map Prod.snd) :=
    fun p hp _ => mem_sortedLabels.mpr (List.mem_map_of_mem Prod.snd hp)
  have hsum := sum_cellCount_row
    (nodup_sortedLabels ((cleanPairs (colToVals ic) (colToVals oc)).map Prod.snd))
    (cleanPairs (colToVals ic) (colToVals oc)) rl hall
  have hfun : ∀ c ∈ sortedLabels ((cleanPairs (colToVals ic) (colToVals oc)).map Prod.snd),
      (cellCount (cleanPairs (colToVals ic) (colToVals oc)) rl c : ℚ) /
          (rowTotal (cleanPairs (colToVals ic) (colToVals oc)) rl : ℚ) * 100 =
        (cellCount (cleanPairs (colToVals ic) (colToVals oc)) rl c : ℚ) *
          (100 / (rowTotal (cleanPairs (colToVals ic) (colToVals oc)) rl : ℚ)) :=
    fun c _ => by ring
  rw [List.map_congr_left hfun, List.sum_map_mul_right]
  have hcast :
      ((sortedLabels ((cleanPairs (colToVals ic) (colToVals oc)).map Prod.snd)).map
        fun c => ((cellCount (cleanPairs (colToVals ic) (colToVals oc)) rl c : Nat) : ℚ)).sum =
        ((rowTotal (cleanPairs (colToVals ic) (colToVals oc)) rl : Nat) : ℚ) := by
    rw [← hsum]
    rw [Nat.cast_list_sum, List.map_map]
    rfl
  rw [hcast, mul_comm, div_mul_cancel₀ _ hne0]

theorem C6_pct_row_sums_witness :
    ((crosstabPct pairs4).cells.headD []).sum = 100 :=
  C6_pct_row_sums df4 "Outcome" "Group" res4 create_df4
    ((crosstabPct pairs4).cells.headD []) (List.mem_cons_self _ _)

/-- C10: In every non-None result, the contingency count table carries an
appended margin row and margin column labelled `All` holding the row and
column sums and the grand total, while the row-normalized percentage table
carries no margin row or column at all: its row and column labels are
exactly the observed independent-variable and outcome labels. -/
theorem C10_margins (df : DataFrame) (o i : String) (r : CrossTabResult)
    (h : create_cross_tabulation df o i = some r) :
    ∃ oc ic, df.col? o = some oc ∧ df.col? i = some ic ∧
      (r.crosstab.rowLabels =
          sortedLabels ((cleanPairs (colToVals ic) (colToVals oc)).map Prod.fst) ++
            [Val.str "All"] ∧
        r.crosstab.colLabels =
          sortedLabels ((cleanPairs (colToVals ic) (colToVals oc)).map Prod.snd) ++
            [Val.str "All"] ∧
        r.crosstab.cells =
          ((sortedLabels ((cleanPairs (colToVals ic) (colToVals oc)).map Prod.fst)).map
              fun rl =>
                ((sortedLabels ((cleanPairs (colToVals ic) (colToVals oc)).map Prod.snd)).map
                    fun c => cellCount (cleanPairs (colToVals ic) (colToVals oc)) rl c) ++
                  [rowTotal (cleanPairs (colToVals ic) (colToVals oc)) rl]) ++
            [((sortedLabels ((cleanPairs (colToVals ic) (colToVals oc)).map Prod.snd)).map
                fun c => colTotal (cleanPairs (colToVals ic) (colToVals oc)) c) ++
              [(cleanPairs (colToVals ic) (colToVals oc)).length]] ∧
        (∀ rl ∈ sortedLabels ((cleanPairs (colToVals ic) (colToVals oc)).map Prod.fst),
          rowTotal (cleanPairs (colToVals ic) (colToVals oc)) rl =
            ((sortedLabels ((cleanPairs (colToVals ic) (colToVals oc)).map Prod.snd)).map
              fun c => cellCount (cleanPairs (colToVals ic) (colToVals oc)) rl c).sum) ∧
        (∀ c ∈ sortedLabels ((cleanPairs (colToVals ic) (colToVals oc)).map Prod.snd),
          colTotal (cleanPairs (colToVals ic) (colToVals oc)) c =
            ((sortedLabels ((cleanPairs (colToVals ic) (colToVals oc)).map Prod.fst)).map
              fun rl => cellCount (cleanPairs (colToVals ic) (colToVals oc)) rl c).sum) ∧
        (cleanPairs (colToVals ic) (colToVals oc)).length =
          ((sortedLabels ((cleanPairs (colToVals ic) (colToVals oc)).map Prod.fst)).map
            fun rl => rowTotal (cleanPairs (colToVals ic) (colToVals oc)) rl).sum ∧
        r.percentages.rowLabels =
          sortedLabels ((cleanPairs (colToVals ic) (colToVals oc)).map Prod.fst) ∧
        r.percentages.colLabels =
          sortedLabels ((cleanPairs (colToVals ic) (colToVals oc)).map Prod.snd) ∧
        (∀ v, v ∈ sortedLabels ((cleanPairs (colToVals ic) (colToVals oc)).map Prod.fst) ↔
          v ∈ (cleanPairs (colToVals ic) (colToVals oc)).map Prod.fst) ∧
        (∀ v, v ∈ sortedLabels ((cleanPairs (colToVals ic) (colToVals oc)).map Prod.snd) ↔
          v ∈ (cleanPairs (colToVals ic) (colToVals oc)).map Prod.snd)) := by
  obtain ⟨oc, ic, hoc, hic, _, hct, hpct, _, _, _⟩ := create_some_spec h
  refine ⟨oc, ic, hoc, hic, ?_, ?_, ?_, ?_, ?_, ?_, ?_, ?_, ?_, ?_⟩
  · rw [hct]; rfl
  · rw [hct]; rfl
  · rw [hct]; rfl
  · intro rl _
    exact (sum_cellCount_row
      (nodup_sortedLabels ((cleanPairs (colToVals ic) (colToVals oc)).map Prod.snd))
      (cleanPairs (colToVals ic) (colToVals oc)) rl
      (fun p hp _ => mem_sortedLabels.mpr (List.mem_map_of_mem Prod.snd hp))).symm
  · intro c _
    exact (sum_cellCount_col
      (nodup_sortedLabels ((cleanPairs (colToVals ic) (colToVals oc)).map Prod.fst))
      (cleanPairs (colToVals ic) (colToVals oc)) c
      (fun p hp _ => mem_sortedLabels.mpr (List.mem_map_of_mem Prod.fst hp))).symm
  · exact (sum_proj_total Prod.fst
      (nodup_sortedLabels ((cleanPairs (colToVals ic) (colToVals oc)).map Prod.fst))
      (cleanPairs (colToVals ic) (colToVals oc))
      (fun p hp => mem_sortedLabels.mpr (List.mem_map_of_mem Prod.fst hp))).symm
  · rw [hpct]; rfl
  · rw [hpct]; rfl
  · exact fun v => mem_sortedLabels
  · exact fun v => mem_sortedLabels

theorem C10_margins_witness :
    res4.crosstab.rowLabels =
        sortedLabels (pairs4.map Prod.fst) ++ [Val.str "All"] ∧
      res4.percentages.rowLabels = sortedLabels (pairs4.map Prod.fst) ∧
      res4.percentages.colLabels = sortedLabels (pairs4.map Prod.snd) := by
  obtain ⟨oc, ic, hoc, hic, h1, _, _, _, _, _, h7, h8, _⟩ :=
    C10_margins df4 "Outcome" "Group" res4 create_df4
  have hoc' : some (ColData.nums (List.replicate 5 (some 1) ++ List.replicate 5 (some 0))) =
      some oc :=
    (show df4.col? "Outcome" =
        some (ColData.nums (List.replicate 5 (some 1) ++ List.replicate 5 (some 0))) from
      rfl).symm.trans hoc
  have hic' : some (ColData.strs (List.replicate 5 (some "A") ++ List.replicate 5 (some "B"))) =
      some ic :=
    (show df4.col? "Group" =
        some (ColData.strs (List.replicate 5 (some "A") ++ List.replicate 5 (some "B"))) from
      rfl).symm.trans hic
  injection hoc' with hoc'
  injection hic' with hic'
  subst hoc'
  subst hic'
  exact ⟨h1, h7, h8⟩

/-- C3: If the inner contingency table (margins removed) has fewer than 2
distinct row labels or fewer than 2 distinct column labels, the returned
result has `chi2_stat`, `p_value` and `cramers_v` all null while the
contingency table, the percentage table and `sample_size` remain fully
populated (they equal exactly what steps 2-3 of the computation produce);
the embedding is total, so no exception propagates to the caller. -/
theorem C3_degenerate (df : DataFrame) (o i : String) (r : CrossTabResult)
    (h : create_cross_tabulation df o i = some r)
    (hdeg : (innerCells r).length < 2 ∨ ((innerCells r).headD []).length < 2) :
    r.chi2_stat = none ∧ r.p_value = none ∧ r.cramers_v = none ∧
      ∃ oc ic, df.col? o = some oc ∧ df.col? i = some ic ∧
        cleanPairs (colToVals ic) (colToVals oc) ≠ [] ∧
        r.crosstab = crosstabMargins (cleanPairs (colToVals ic) (colToVals oc)) ∧
        r.percentages = crosstabPct (cleanPairs (colToVals ic) (colToVals oc)) ∧
        r.sample_size = (cleanPairs (colToVals ic) (colToVals oc)).length := by
  obtain ⟨oc, ic, hoc, hic, hne, hct, hpct, hsz, _, hnegs⟩ := create_some_spec h
  have hcond : ¬((innerCells r).length > 1 ∧ ((innerCells r).headD []).length > 1) := by
    rintro ⟨h1, h2⟩
    rcases hdeg with h3 | h3 <;> omega
  obtain ⟨h1, h2, h3⟩ := hnegs hcond
  exact ⟨h1, h2, h3, oc, ic, hoc, hic, hne, hct, hpct, hsz⟩

/-- A single-category independent variable (Scenario D): the inner table
has one row, so the statistical fields degrade to null. -/
def dfD : DataFrame :=
  ⟨[("Group", ColData.strs (List.replicate 4 (some "A"))),
    ("Outcome", ColData.nums [some 1, some 0, some 1, some 1])]⟩

def pairsD : List (Val × Val) :=
  cleanPairs (colToVals (ColData.strs (List.replicate 4 (some "A"))))
    (colToVals (ColData.nums [some 1, some 0, some 1, some 1]))

def resD : CrossTabResult :=
  { crosstab := crosstabMargins pairsD
    percentages := crosstabPct pairsD
    chi2_stat := none
    p_value := none
    cramers_v := none
    sample_size := pairsD.length }

theorem C3_degenerate_witness :
    resD.chi2_stat = none ∧ resD.p_value = none ∧ resD.cramers_v = none ∧
      resD.sample_size = 4 :=
  ⟨(C3_degenerate dfD "Outcome" "Group" resD rfl (.inl (by decide))).1,
    (C3_degenerate dfD "Outcome" "Group" resD rfl (.inl (by decide))).2.1,
    (C3_degenerate dfD "Outcome" "Group" resD rfl (.inl (by decide))).2.2.1, rfl⟩

theorem mem_of_mapM_ok {α β : Type} {f : α → Except Unit β} :
    ∀ {l : List α} {ys : List β}, l.mapM f = .ok ys →
      ∀ {x y}, x ∈ l → f x = .ok y → y ∈ ys := by
  intro l
  induction l with
  | nil =>
    intro ys h x y hx
    simp at hx
  | cons a as ih =>
    intro ys h x y hx hfx
    rw [List.mapM_cons] at h
    cases hfa : f a with
    | error e => rw [hfa] at h; simp [Bind.bind, Except.bind] at h
    | ok b =>
      rw [hfa] at h
      cases hrest : as.mapM f with
      | error e =>
        rw [hrest] at h
        simp [Bind.bind, Except.bind, Pure.pure, Except.pure] at h
      | ok bs =>
        rw [hrest] at h
        simp only [Bind.bind, Except.bind, Pure.pure, Except.pure, Except.ok.injEq] at h
        subst h
        rcases List.mem_cons.mp hx with hx | hx
        · subst hx
          rw [hfx] at hfa
          injection hfa with hfa
          exact hfa ▸ List.mem_cons_self b bs
        · exact List.mem_cons_of_mem b (ih hrest hx hfx)

/-- Unfolding of a successful indicator-set-1 run: both column loops
succeed and the output is the ranking stage applied to their
concatenation. -/
theorem set1_ok {df : DataFrame} {rs : List Result}
    (hok : calculate_descriptive_stats df "set1" = .ok rs) :
    ∃ svc pop,
      (df.cols.filter fun c => isServiceCol c.1).mapM
          (binaryStats "Service Disruptions" fun col =>
            strReplace (strReplace col "Q9_" "") "_" " ") = .ok svc ∧
        (df.cols.filter fun c => isPopCol c.1).mapM
          (binaryStats "Populations Most Affected" fun col =>
            strReplace (strReplace col "Q10_Pop_" "") "_" " ") = .ok pop ∧
        rs = rankSet1 (svc ++ pop) := by
  unfold calculate_descriptive_stats at hok
  rw [if_pos rfl] at hok
  cases hset : set1Results df with
  | error e => rw [hset] at hok; simp [Except.map] at hok
  | ok base =>
    rw [hset] at hok
    simp only [Except.map, Except.ok.injEq] at hok
    subst hok
    unfold set1Results at hset
    cases hsvc : (df.cols.filter fun c => isServiceCol c.1).mapM
        (binaryStats "Service Disruptions" fun col =>
          strReplace (strReplace col "Q9_" "") "_" " ") with
    | error e => rw [hsvc] at hset; simp [Bind.bind, Except.bind] at hset
    | ok svc =>
      rw [hsvc] at hset
      cases hpop : (df.cols.filter fun c => isPopCol c.1).mapM
          (binaryStats "Populations Most Affected" fun col =>
            strReplace (strReplace col "Q10_Pop_" "") "_" " ") with
      | error e =>
        rw [hpop] at hset
        simp [Bind.bind, Except.bind] at hset
      | ok pop =>
        rw [hpop] at hset
        simp only [Bind.bind, Except.bind, Pure.pure, Except.pure, Except.ok.injEq] at hset
        subst hset
        exact ⟨svc, pop, rfl, rfl, rfl⟩

theorem mapM_ok_of_mem {α β : Type} {f : α → Except Unit β} :
    ∀ {l : List α} {ys : List β}, l.mapM f = .ok ys →
      ∀ x ∈ l, ∃ y, f x = .ok y := by
  intro l
  induction l with
  | nil =>
    intro ys _ x hx
    simp at hx
  | cons a as ih =>
    intro ys h x hx
    rw [List.mapM_cons] at h
    cases hfa : f a with
    | error e => rw [hfa] at h; simp [Bind.bind, Except.bind] at h
    | ok b =>
      rw [hfa] at h
      cases hrest : as.mapM f with
      | error e =>
        rw [hrest] at h
        simp [Bind.bind, Except.bind, Pure.pure, Except.pure] at h
      | ok bs =>
        rcases List.mem_cons.mp hx with hx | hx
        · exact ⟨b, hx ▸ hfa⟩
        · exact ih hrest x hx

/-- A binary set-1 column with no non-missing responses produces the
zero-percentage, low-concern result. -/
theorem binaryStats_zero (cat : String) (mk : String → String) (c : String)
    {vals : List (Option ℚ)} (h : countSome vals = 0) :
    binaryStats cat mk (c, ColData.nums vals) =
      .ok { var := c, name := mk c, category := cat, kind := "Binary", total := 0,
            positive := some (sumSome vals), categories := none, percentage := 0,
            concern_level := "low", rank := 0, is_top_ranked := none } := by
  simp only [binaryStats, h]
  norm_num [concernLevel]

/-- A sets-2-5 variable (numeric or categorical) with no non-missing
responses produces the zero-percentage, low-concern result. -/
theorem otherStat_zero (c : String × ColData) (h : c.2.notnaCount = 0) :
    (otherStat c).var = c.1 ∧ (otherStat c).category = "Outcome" ∧
      (otherStat c).total = 0 ∧ (otherStat c).percentage = 0 ∧
      (otherStat c).concern_level = "low" := by
  obtain ⟨name, cd⟩ := c
  cases cd with
  | nums vs =>
    have hall : ∀ v ∈ vs, ¬(v.isSome = true) := by
      have h' : vs.countP (fun v => v.isSome) = 0 := h
      exact List.countP_eq_zero.mp h'
    have hemp : vs.filterMap id = [] := by
      rw [List.filterMap_eq_nil_iff]
      intro a ha
      cases hva : a with
      | none => rfl
      | some q => exact absurd (by rw [hva]; rfl) (hall a ha)
    have hcond : ((ColData.nums vs).isNumeric &&
        decide ((ColData.nums vs).nunique ≤ 2)) = true := by
      simp [ColData.isNumeric, ColData.nunique, hemp]
    unfold otherStat
    rw [if_pos hcond]
    have h0 : (ColData.nums vs).notnaCount = 0 := h
    simp only [h0]
    norm_num [concernLevel]
  | strs vs =>
    have hcond : ¬(((ColData.strs vs).isNumeric &&
        decide ((ColData.strs vs).nunique ≤ 2)) = true) := by
      simp [ColData.isNumeric]
    unfold otherStat
    rw [if_neg hcond]
    have h0 : (ColData.strs vs).notnaCount = 0 := h
    simp only [h0]
    norm_num [concernLevel]

/-- In the ranked version of a group, a member with percentage 0 keeps its
fields and is ranked strictly below every member with positive
percentage (indicator-set-1 variant, which also sets `is_top_ranked`). -/
theorem ranked_above_zero_top {g : List Result} {r0 : Result} (hr0 : r0 ∈ g)
    (hpct : r0.percentage = 0) :
    ∃ r ∈ assignRanksTop 0 (g.insertionSort pctGE),
      r.var = r0.var ∧ r.category = r0.category ∧ r.total = r0.total ∧
      r.percentage = 0 ∧ r.concern_level = r0.concern_level ∧
      ∀ r' ∈ assignRanksTop 0 (g.insertionSort pctGE),
        0 < r'.percentage → r'.rank < r.rank := by
  have hsort : r0 ∈ g.insertionSort pctGE := (List.mem_insertionSort pctGE).mpr hr0
  obtain ⟨⟨i, hi⟩, hgi⟩ := List.mem_iff_get.mp hsort
  have hio : i < (assignRanksTop 0 (g.insertionSort pctGE)).length := by
    rw [assignRanksTop_length]
    exact hi
  have hgo := assignRanksTop_get 0 (g.insertionSort pctGE) i hio
  have hout : (assignRanksTop 0 (g.insertionSort pctGE)).get ⟨i, hio⟩ =
      { r0 with rank := 0 + i + 1, is_top_ranked := some (decide (0 + i = 0)) } := by
    rw [hgo]
    exact congrArg
      (fun x => { x with rank := 0 + i + 1, is_top_ranked := some (decide (0 + i = 0)) }) hgi
  refine ⟨(assignRanksTop 0 (g.insertionSort pctGE)).get ⟨i, hio⟩,
    List.get_mem _ _ _, ?_, ?_, ?_, ?_, ?_, ?_⟩
  · rw [hout]
  · rw [hout]
  · rw [hout]
  · rw [hout]; exact hpct
  · rw [hout]
  · intro r' hr' hp
    obtain ⟨⟨j, hj⟩, hgj⟩ := List.mem_iff_get.mp hr'
    have hgoj := assignRanksTop_get 0 (g.insertionSort pctGE) j hj
    rw [← hgj, hgoj] at hp ⊢
    have hj' : j < (g.insertionSort pctGE).length := by
      rw [← assignRanksTop_length 0]
      exact hj
    have hzero : ((g.insertionSort pctGE).get ⟨i, hi⟩).percentage = 0 := by
      rw [hgi]
      exact hpct
    have hgt : ((g.insertionSort pctGE).get ⟨i, hi⟩).percentage <
        ((g.insertionSort pctGE).get ⟨j, hj'⟩).percentage := by
      rw [hzero]
      exact hp
    have hji : j < i :=
      rank_mono_of_sorted (List.sorted_insertionSort pctGE g) hj' hi hgt
    rw [hout]
    show 0 + j + 1 < 0 + i + 1
    omega

/-- In the ranked version of a group, a member with percentage 0 keeps its
fields and is ranked strictly below every member with positive
percentage (variant for the non-set-1 ranking loop). -/
theorem ranked_above_zero {g : List Result} {r0 : Result} (hr0 : r0 ∈ g)
    (hpct : r0.percentage = 0) :
    ∃ r ∈ assignRanks 0 (g.insertionSort pctGE),
      r.var = r0.var ∧ r.category = r0.category ∧ r.total = r0.total ∧
      r.percentage = 0 ∧ r.concern_level = r0.concern_level ∧
      ∀ r' ∈ assignRanks 0 (g.insertionSort pctGE),
        0 < r'.percentage → r'.rank < r.rank := by
  have hsort : r0 ∈ g.insertionSort pctGE := (List.mem_insertionSort pctGE).mpr hr0
  obtain ⟨⟨i, hi⟩, hgi⟩ := List.mem_iff_get.mp hsort
  have hio : i < (assignRanks 0 (g.insertionSort pctGE)).length := by
    rw [assignRanks_length]
    exact hi
  have hgo := assignRanks_get 0 (g.insertionSort pctGE) i hio
  have hout : (assignRanks 0 (g.insertionSort pctGE)).get ⟨i, hio⟩ =
      { r0 with rank := 0 + i + 1 } := by
    rw [hgo]
    exact congrArg (fun x => { x with rank := 0 + i + 1 }) hgi
  refine ⟨(assignRanks 0 (g.insertionSort pctGE)).get ⟨i, hio⟩,
    List.get_mem _ _ _, ?_, ?_, ?_, ?_, ?_, ?_⟩
  · rw [hout]
  · rw [hout]
  · rw [hout]
  · rw [hout]; exact hpct
  · rw [hout]
  · intro r' hr' hp
    obtain ⟨⟨j, hj⟩, hgj⟩ := List.mem_iff_get.mp hr'
    have hgoj := assignRanks_get 0 (g.insertionSort pctGE) j hj
    rw [← hgj, hgoj] at hp ⊢
    have hj' : j < (g.insertionSort pctGE).length := by
      rw [← assignRanks_length 0]
      exact hj
    have hzero : ((g.insertionSort pctGE).get ⟨i, hi⟩).percentage = 0 := by
      rw [hgi]
      exact hpct
    have hgt : ((g.insertionSort pctGE).get ⟨i, hi⟩).percentage <
        ((g.insertionSort pctGE).get ⟨j, hj'⟩).percentage := by
      rw [hzero]
      exact hp
    have hji : j < i :=
      rank_mono_of_sorted (List.sorted_insertionSort pctGE g) hj' hi hgt
    rw [hout]
    show 0 + j + 1 < 0 + i + 1
    omega

/-! ## The chi-square p-value of Scenario B is below 0.05 -/

/-- The 1-dof chi-square survival function written with the Gamma constants
evaluated: `Gamma (1/2) = sqrt pi` and `2 ^ (1/2) = sqrt 2`. -/
theorem chiSquareSF_one_eq (x : ℝ) :
    chiSquareSF 1 x =
      ∫ t in Set.Ioi x,
        t ^ (-(1/2) : ℝ) * Real.exp (-t / 2) / (Real.sqrt 2 * Real.sqrt Real.pi) := by
  unfold chiSquareSF
  congr 1
  funext t
  simp only [Nat.cast_one]
  rw [show ((1:ℝ)/2 - 1) = -(1/2) by norm_num, Real.Gamma_one_half_eq,
    show ((2:ℝ) ^ ((1:ℝ)/2)) = Real.sqrt 2 from (Real.sqrt_eq_rpow 2).symm]

theorem exp_sixteen_fifths_ge : (8:ℝ) ≤ Real.exp (16/5) := by
  have h1 : (2.7:ℝ) < Real.exp 1 := lt_trans (by norm_num) Real.exp_one_gt_d9
  have h2 : (2.7:ℝ) ^ 3 < Real.exp 1 ^ 3 :=
    pow_lt_pow_left₀ h1 (by norm_num) (by norm_num)
  have h3 : Real.exp 1 ^ 3 = Real.exp 3 := by
    rw [← Real.exp_nat_mul]
    norm_num
  have h4 : Real.exp 3 ≤ Real.exp (16/5) := Real.exp_le_exp.mpr (by norm_num)
  nlinarith

theorem sqrt_two_pi_ge : (5/2:ℝ) ≤ Real.sqrt 2 * Real.sqrt Real.pi := by
  rw [← Real.sqrt_mul (by norm_num : (0:ℝ) ≤ 2) Real.pi]
  rw [show (5/2:ℝ) = Real.sqrt ((5/2)^2) from (Real.sqrt_sq (by norm_num)).symm]
  apply Real.sqrt_le_sqrt
  nlinarith [Real.pi_gt_d2]

theorem integral_exp_tail :
    ∫ t in Set.Ioi ((32:ℝ)/5), Real.exp (-(1/2) * t) =
      2 * Real.exp (-(1/2) * (32/5)) := by
  have hderiv : ∀ x ∈ Set.Ici ((32:ℝ)/5),
      HasDerivAt (fun t => -2 * Real.exp (-(1/2) * t)) (Real.exp (-(1/2) * x)) x := by
    intro x _
    have h1 : HasDerivAt (fun t : ℝ => -(1/2) * t) (-(1/2)) x := by
      simpa using (hasDerivAt_id x).const_mul (-(1/2) : ℝ)
    have h3 := h1.exp.const_mul (-2 : ℝ)
    convert h3 using 1
    ring
  have hint : MeasureTheory.IntegrableOn (fun t => Real.exp (-(1/2) * t))
      (Set.Ioi ((32:ℝ)/5)) := exp_neg_integrableOn_Ioi _ (by norm_num)
  have htend : Filter.Tendsto (fun t => -2 * Real.exp (-(1/2) * t)) Filter.atTop
      (nhds 0) := by
    have h1 : Filter.Tendsto (fun t : ℝ => -(1/2) * t) Filter.atTop Filter.atBot :=
      Filter.tendsto_id.const_mul_atTop_of_neg (by norm_num)
    have h2 := Real.tendsto_exp_atBot.comp h1
    have h3 := h2.const_mul (-2 : ℝ)
    simpa using h3
  have h := MeasureTheory.integral_Ioi_of_hasDerivAt_of_tendsto' hderiv hint htend
  rw [h]
  ring

theorem chiSquareSF_scenarioB_lt : chiSquareSF 1 ((32:ℝ)/5) < 1/20 := by
  rw [chiSquareSF_one_eq]
  set D : ℝ := Real.sqrt 2 * Real.sqrt Real.pi with hD
  have hDpos : 0 < D := lt_of_lt_of_le (by norm_num) sqrt_two_pi_ge
  set g : ℝ → ℝ := fun t => Real.exp (-(1/2) * t) * ((2/5) / D) with hg
  have hbound : ∀ t ∈ Set.Ioi ((32:ℝ)/5),
      t ^ (-(1/2) : ℝ) * Real.exp (-t / 2) / D ≤ g t := by
    intro t ht
    have ht' : (32:ℝ)/5 < t := ht
    have ht0 : (0:ℝ) < t := by linarith
    have hsq : (5/2:ℝ) ≤ Real.sqrt t := by
      rw [show (5/2:ℝ) = Real.sqrt ((5/2)^2) from (Real.sqrt_sq (by norm_num)).symm]
      apply Real.sqrt_le_sqrt
      nlinarith
    have hrp : t ^ (-(1/2) : ℝ) = (Real.sqrt t)⁻¹ := by
      rw [Real.rpow_neg (le_of_lt ht0), ← Real.sqrt_eq_rpow]
    have hinv : (Real.sqrt t)⁻¹ ≤ 2/5 := by
      rw [show (2/5:ℝ) = (5/2:ℝ)⁻¹ by norm_num]
      exact inv_anti₀ (by norm_num) hsq
    have hexp : Real.exp (-t / 2) = Real.exp (-(1/2) * t) := by ring_nf
    simp only [hg]
    rw [hrp, hexp]
    rw [div_eq_mul_inv, div_eq_mul_inv (2/5 : ℝ) D]
    have hexppos : (0:ℝ) < Real.exp (-(1/2) * t) := Real.exp_pos _
    have h2 : (0:ℝ) ≤ D⁻¹ := le_of_lt (inv_pos.mpr hDpos)
    calc (Real.sqrt t)⁻¹ * Real.exp (-(1/2) * t) * D⁻¹
        ≤ (2/5) * Real.exp (-(1/2) * t) * D⁻¹ :=
          mul_le_mul_of_nonneg_right
            (mul_le_mul_of_nonneg_right hinv (le_of_lt hexppos)) h2
      _ = Real.exp (-(1/2) * t) * (2/5 * D⁻¹) := by ring
  have hgint : MeasureTheory.IntegrableOn g (Set.Ioi ((32:ℝ)/5)) :=
    (exp_neg_integrableOn_Ioi _ (by norm_num)).mul_const _
  have hfcont : ContinuousOn
      (fun t : ℝ => t ^ (-(1/2) : ℝ) * Real.exp (-t / 2) / D)
      (Set.Ioi ((32:ℝ)/5)) := by
    apply ContinuousOn.div_const
    apply ContinuousOn.mul
    · refine continuousOn_id.rpow_const fun x hx => .inl ?_
      simp only [id_eq]
      intro h0
      rw [h0] at hx
      have : (32:ℝ)/5 < 0 := hx
      norm_num at this
    · exact (Real.continuous_exp.comp (continuous_id.neg.div_const 2)).continuousOn
  have hfmeas : MeasureTheory.AEStronglyMeasurable
      (fun t : ℝ => t ^ (-(1/2) : ℝ) * Real.exp (-t / 2) / D)
      (MeasureTheory.volume.restrict (Set.Ioi ((32:ℝ)/5))) :=
    hfcont.aestronglyMeasurable measurableSet_Ioi
  have hfnonneg : ∀ t ∈ Set.Ioi ((32:ℝ)/5),
      0 ≤ t ^ (-(1/2) : ℝ) * Real.exp (-t / 2) / D := by
    intro t ht
    have ht0 : (0:ℝ) < t := by
      have : (32:ℝ)/5 < t := ht
      linarith
    apply div_nonneg _ (le_of_lt hDpos)
    exact mul_nonneg (Real.rpow_nonneg (le_of_lt ht0) _) (le_of_lt (Real.exp_pos _))
  have hfint : MeasureTheory.IntegrableOn
      (fun t : ℝ => t ^ (-(1/2) : ℝ) * Real.exp (-t / 2) / D)
      (Set.Ioi ((32:ℝ)/5)) := by
    apply MeasureTheory.Integrable.mono' hgint hfmeas
    filter_upwards [MeasureTheory.self_mem_ae_restrict
      (measurableSet_Ioi : MeasurableSet (Set.Ioi ((32:ℝ)/5)))] with t ht
    rw [Real.norm_of_nonneg (hfnonneg t ht)]
    exact hbound t ht
  have hle : (∫ t in Set.Ioi ((32:ℝ)/5),
      t ^ (-(1/2) : ℝ) * Real.exp (-t / 2) / D) ≤
      ∫ t in Set.Ioi ((32:ℝ)/5), g t :=
    MeasureTheory.setIntegral_mono_on hfint hgint measurableSet_Ioi hbound
  have hgval : (∫ t in Set.Ioi ((32:ℝ)/5), g t) =
      2 * Real.exp (-(1/2) * (32/5)) * ((2/5) / D) := by
    simp only [hg]
    rw [MeasureTheory.integral_mul_right]
    rw [integral_exp_tail]
  have hexp18 : Real.exp (-(1/2) * (32/5)) ≤ 1/8 := by
    rw [show (-(1/2) * (32/5) : ℝ) = -(16/5) by norm_num, Real.exp_neg]
    rw [show (1/8 : ℝ) = 8⁻¹ by norm_num]
    exact inv_anti₀ (by norm_num) exp_sixteen_fifths_ge
  have hCle : (2/5 : ℝ) / D ≤ (2/5) / (5/2) := by
    apply div_le_div_of_nonneg_left (by norm_num) (by norm_num) sqrt_two_pi_ge
  have hfinal : 2 * Real.exp (-(1/2) * (32/5)) * ((2/5) / D) < 1/20 := by
    have hCpos : (0:ℝ) ≤ (2/5) / D := le_of_lt (div_pos (by norm_num) hDpos)
    have hexppos : (0:ℝ) ≤ Real.exp (-(1/2) * (32/5)) := le_of_lt (Real.exp_pos _)
    nlinarith
  calc (∫ t in Set.Ioi ((32:ℝ)/5), t ^ (-(1/2) : ℝ) * Real.exp (-t / 2) / D)
      ≤ ∫ t in Set.Ioi ((32:ℝ)/5), g t := hle
    _ = 2 * Real.exp (-(1/2) * (32/5)) * ((2/5) / D) := hgval
    _ < 1/20 := hfinal

theorem chi2Stat_inner4 : chi2Stat inner4 = 32/5 := by
  have hi : inner4 = [[0, 5], [5, 0]] := by decide
  rw [hi]
  simp [chi2Stat, chi2Dof, colSums]
  norm_num [min_def, abs_of_nonneg, abs_of_nonpos]

theorem cramers_res4 : res4.cramers_v = some ((4:ℝ)/5) := by
  show some _ = some _
  congr 1
  rw [chi2Stat_inner4,
    show ((inner4.map List.sum).sum : Nat) = 10 by decide,
    show inner4.length = 2 by decide,
    show (inner4.headD []).length = 2 by decide]
  rw [show (((32:ℚ)/5 : ℚ) : ℝ) = (32:ℝ)/5 by norm_num]
  rw [show ((32:ℝ)/5 / (((10:ℕ):ℝ) * (min ((2:ℕ):ℝ) ((2:ℕ):ℝ) - 1))) = ((4:ℝ)/5)^2 by
    push_cast
    norm_num [min_self]]
  exact Real.sqrt_sq (by norm_num)

/-- C4 as stated is false on the code at the Scenario-B input: with the two
independent-variable labels sorted as A, B and the two outcome labels
sorted as 0, 1 (the order `pd.crosstab` uses), the inner contingency table
is [[0,5],[5,0]], not [[5,0],[0,5]]; and Cramér's V is exactly 0.8 - the
chi-square statistic carries Yates' continuity correction (6.4, not 10),
so V = sqrt(6.4/10) = 0.8 rather than a value close to 1.0. -/
theorem C4_scenarioB_counterexample :
    ∃ r, create_cross_tabulation df4 "Outcome" "Group" = some r ∧
      innerCells r = [[0, 5], [5, 0]] ∧ ¬(innerCells r = [[5, 0], [0, 5]]) ∧
      r.cramers_v = some ((4:ℝ)/5) :=
  ⟨res4, create_df4, by decide, by decide, cramers_res4⟩

/-- C4 (amended): for the Scenario-B dataset (independent variable with
categories A (5 rows) and B (5 rows), binary outcome 1 on every A row and
0 on every B row), `create_cross_tabulation` produces the inner contingency
table [[0,5],[5,0]] over sorted row labels [A, B] and column labels [0, 1],
a Yates-corrected chi-square statistic of exactly 32/5 = 6.4, a p_value
strictly below 0.05, and Cramér's V of exactly 0.8. -/
theorem C4_scenarioB_amended :
    ∃ r, create_cross_tabulation df4 "Outcome" "Group" = some r ∧
      r.crosstab.rowLabels = [Val.str "A", Val.str "B", Val.str "All"] ∧
      r.crosstab.colLabels = [Val.num 0, Val.num 1, Val.str "All"] ∧
      innerCells r = [[0, 5], [5, 0]] ∧
      r.chi2_stat = some (32/5) ∧
      (∃ p, r.p_value = some p ∧ p < 1/20) ∧
      r.cramers_v = some ((4:ℝ)/5) := by
  refine ⟨res4, create_df4, by decide, by decide, by decide, ?_, ?_, cramers_res4⟩
  · show some (chi2Stat inner4) = some (32/5)
    rw [chi2Stat_inner4]
  · refine ⟨chiSquareSF (chi2Dof inner4) ((chi2Stat inner4 : ℚ) : ℝ), rfl, ?_⟩
    rw [show chi2Dof inner4 = 1 by decide, chi2Stat_inner4,
      show (((32:ℚ)/5 : ℚ) : ℝ) = (32:ℝ)/5 by norm_num]
    exact chiSquareSF_scenarioB_lt

/-- C8: A variable whose count of non-missing responses (total) is 0 yields
percentage = 0 and concern_level = `low`, still appears in the descriptive
output, and is ranked below every result of its group with positive
percentage - i.e. ranked last, deterministically, up to ties at
percentage 0 resolved by the stable-sort rule.  Part one covers indicator
set 1 - both the `Service Disruptions` and the `Populations Most Affected`
group, for columns of either pandas dtype (an object column makes the
set-1 loop raise, so a successful run has none) - and part two covers the
binary and categorical variables of every other indicator set. -/
theorem C8_zero_total :
    (∀ (df : DataFrame) (c : String) (cd : ColData) (rs : List Result),
      (c, cd) ∈ df.cols →
      (isServiceCol c = true ∨ isPopCol c = true) →
      cd.notnaCount = 0 →
      calculate_descriptive_stats df "set1" = .ok rs →
      ∃ r ∈ rs, r.var = c ∧ r.total = 0 ∧ r.percentage = 0 ∧
        r.concern_level = "low" ∧
        ∀ r' ∈ rs, r'.category = r.category → 0 < r'.percentage → r'.rank < r.rank) ∧
    (∀ (df : DataFrame) (c : String) (cd : ColData) (iset : String) (rs : List Result),
      iset ≠ "set1" →
      (c, cd) ∈ df.cols →
      ((outcomeVarPats iset).any fun p => strStartsWith c p) = true →
      cd.notnaCount = 0 →
      calculate_descriptive_stats df iset = .ok rs →
      ∃ r ∈ rs, r.var = c ∧ r.total = 0 ∧ r.percentage = 0 ∧
        r.concern_level = "low" ∧
        ∀ r' ∈ rs, r'.category = r.category → 0 < r'.percentage → r'.rank < r.rank) := by
  constructor
  · intro df c cd rs hmem hfilt htot hok
    obtain ⟨svc, pop, hsvcM, hpopM, hrs⟩ := set1_ok hok
    cases cd with
    | strs vs =>
      rcases hfilt with hf | hf
      · obtain ⟨y, hy⟩ :=
          mapM_ok_of_mem hsvcM (c, ColData.strs vs) (List.mem_filter.mpr ⟨hmem, hf⟩)
        simp [binaryStats] at hy
      · obtain ⟨y, hy⟩ :=
          mapM_ok_of_mem hpopM (c, ColData.strs vs) (List.mem_filter.mpr ⟨hmem, hf⟩)
        simp [binaryStats] at hy
    | nums vs =>
      have hcount : countSome vs = 0 := htot
      rcases hfilt with hf | hf
      · have hb := binaryStats_zero "Service Disruptions"
          (fun col => strReplace (strReplace col "Q9_" "") "_" " ") c hcount
        have hr0mem := mem_of_mapM_ok hsvcM (List.mem_filter.mpr ⟨hmem, hf⟩) hb
        have hr0serv :
            ({ var := c, name := strReplace (strReplace c "Q9_" "") "_" " ",
               category := "Service Disruptions", kind := "Binary", total := 0,
               positive := some (sumSome vs), categories := none, percentage := 0,
               concern_level := "low", rank := 0, is_top_ranked := none } : Result) ∈
              (svc ++ pop).filter fun r => r.category = "Service Disruptions" :=
          List.mem_filter.mpr ⟨List.mem_append_left pop hr0mem, rfl⟩
        obtain ⟨r, hrmem, hvar, hcat, htotal, hpct, hconc, hforall⟩ :=
          ranked_above_zero_top hr0serv rfl
        refine ⟨r, ?_, ?_, ?_, ?_, ?_, ?_⟩
        · rw [hrs]
          unfold rankSet1
          exact List.mem_append_left _ hrmem
        · rw [hvar]
        · rw [htotal]
        · exact hpct
        · rw [hconc]
        · intro r' hr' hcatEq hp
          rw [hrs] at hr'
          unfold rankSet1 at hr'
          rcases List.mem_append.mp hr' with h' | h'
          · exact hforall r' h' hp
          · obtain ⟨p, hpmem, hpe⟩ := mem_assignRanksTop h'
            have hpcat := (List.mem_filter.mp ((List.mem_insertionSort pctGE).mp hpmem)).2
            rw [hpe] at hcatEq
            have h1 : p.category = "Service Disruptions" := by
              have h2 : p.category = r.category := hcatEq
              rw [hcat] at h2
              exact h2
            rw [of_decide_eq_true hpcat] at h1
            exact absurd h1 (by decide)
      · have hb := binaryStats_zero "Populations Most Affected"
          (fun col => strReplace (strReplace col "Q10_Pop_" "") "_" " ") c hcount
        have hr0mem := mem_of_mapM_ok hpopM (List.mem_filter.mpr ⟨hmem, hf⟩) hb
        have hr0pop :
            ({ var := c, name := strReplace (strReplace c "Q10_Pop_" "") "_" " ",
               category := "Populations Most Affected", kind := "Binary", total := 0,
               positive := some (sumSome vs), categories := none, percentage := 0,
               concern_level := "low", rank := 0, is_top_ranked := none } : Result) ∈
              (svc ++ pop).filter fun r => r.category = "Populations Most Affected" :=
          List.mem_filter.mpr ⟨List.mem_append_right svc hr0mem, rfl⟩
        obtain ⟨r, hrmem, hvar, hcat, htotal, hpct, hconc, hforall⟩ :=
          ranked_above_zero_top hr0pop rfl
        refine ⟨r, ?_, ?_, ?_, ?_, ?_, ?_⟩
        · rw [hrs]
          unfold rankSet1
          exact List.mem_append_right _ hrmem
        · rw [hvar]
        · rw [htotal]
        · exact hpct
        · rw [hconc]
        · intro r' hr' hcatEq hp
          rw [hrs] at hr'
          unfold rankSet1 at hr'
          rcases List.mem_append.mp hr' with h' | h'
          · obtain ⟨p, hpmem, hpe⟩ := mem_assignRanksTop h'
            have hpcat := (List.mem_filter.mp ((List.mem_insertionSort pctGE).mp hpmem)).2
            rw [hpe] at hcatEq
            have h1 : p.category = "Populations Most Affected" := by
              have h2 : p.category = r.category := hcatEq
              rw [hcat] at h2
              exact h2
            rw [of_decide_eq_true hpcat] at h1
            exact absurd h1 (by decide)
          · exact hforall r' h' hp
  · intro df c cd iset rs hne hmem hpat htot hok
    have hrs : rs = rankOther (otherResults df iset) := by
      unfold calculate_descriptive_stats at hok
      rw [if_neg hne] at hok
      injection hok with h
      exact h.symm
    obtain ⟨hvar0, hcat0, htot0, hpct0, hconc0⟩ := otherStat_zero (c, cd) htot
    have hr0mem : otherStat (c, cd) ∈ otherResults df iset := by
      unfold otherResults
      exact List.mem_map_of_mem otherStat (List.mem_filter.mpr ⟨hmem, hpat⟩)
    obtain ⟨r, hrmem, hvar, hcat, htotal, hpct, hconc, hforall⟩ :=
      ranked_above_zero hr0mem hpct0
    refine ⟨r, ?_, ?_, ?_, ?_, ?_, ?_⟩
    · rw [hrs]
      unfold rankOther
      exact hrmem
    · rw [hvar, hvar0]
    · rw [htotal, htot0]
    · exact hpct
    · rw [hconc, hconc0]
    · intro r' hr' _ hp
      rw [hrs] at hr'
      unfold rankOther at hr'
      exact hforall r' hr' hp

def df8 : DataFrame :=
  ⟨[("Q9_A", ColData.nums [some 1, some 0]), ("Q9_Z", ColData.nums [none, none])]⟩

def df9 : DataFrame :=
  ⟨[("Q21_A", ColData.nums [some 1, some 0, some 1]),
    ("Q21_Z", ColData.strs [none, none])]⟩

theorem C8_zero_total_witness :
    (∃ rs, calculate_descriptive_stats df8 "set1" = .ok rs ∧
      ∃ r ∈ rs, r.var = "Q9_Z" ∧ r.total = 0 ∧ r.percentage = 0 ∧
        r.concern_level = "low" ∧
        ∀ r' ∈ rs, r'.category = r.category → 0 < r'.percentage → r'.rank < r.rank) ∧
    (∃ rs, calculate_descriptive_stats df9 "set2" = .ok rs ∧
      ∃ r ∈ rs, r.var = "Q21_Z" ∧ r.total = 0 ∧ r.percentage = 0 ∧
        r.concern_level = "low" ∧
        ∀ r' ∈ rs, r'.category = r.category → 0 < r'.percentage → r'.rank < r.rank) :=
  ⟨⟨_, rfl,
      C8_zero_total.1 df8 "Q9_Z" (ColData.nums [none, none]) _
        (List.mem_cons_of_mem _ (List.mem_cons_self _ _)) (.inl (by decide))
        (by decide) rfl⟩,
    ⟨_, rfl,
      C8_zero_total.2 df9 "Q21_Z" (ColData.strs [none, none]) "set2" _
        (by decide) (List.mem_cons_of_mem _ (List.mem_cons_self _ _)) (by decide)
        (by decide) rfl⟩⟩

end SurveyApp
